import Mathlib

/-!
# Verification of the biostar incremental Bayesian simulation and rollup engine

This file gives a shallow embedding, in Lean 4, of the core of the
`biostar` bioburden-estimation tool:

* `biostar/modules/update.py`   — the statistical update engine
  (`likelihoods`, `generic_prior_solution`, `update_analogy_prior`,
  `sim_cfu`, `sim_component`);
* `biostar/modules/parsing.py`  — sample validation and eligibility
  (`detect_sample_alerts`, `identify_valid_samples`,
  `find_implied_hardware`);
* `biostar/modules/data.py`     — the efficiency-parameter and
  spec-density tables and the categorical resolvers;
* `biostar/callbacks/results.py` — the incremental recomputation
  controller (`store_sims_components`) and the rollup aggregator
  (`store_sims_rollups`, `handle_child`, `reduce_child_results`);
* `biostar/callbacks/delete.py` — the hardware-deletion cascade
  (`hardware_delete_confirm`).

Modelling conventions:

* Python floats are modelled as exact numbers: `ℚ` where only field
  arithmetic occurs (hardware extents, rollup aggregation, table
  parameters) and `ℝ` where `log`/`exp` enter (the likelihood
  computations).  Floating-point rounding error is not modelled.
* Randomness (`numpy.random` `beta`/`gamma`/`poisson`/`choice` draws) is
  modelled by an explicit `RandomSource` of realized draws passed as an
  argument; distributional facts about the generator itself are outside
  the embedding.
* Python dictionaries keyed by id are modelled as association lists
  (`List (String × _)`); a `KeyError` raised by a plain `d[k]` access is
  modelled by `Option`-valued lookup where the failure is reachable in
  the claims, and by a `getD` default where the surrounding invariants
  make the key present.
* `Dash`'s `PreventUpdate` (callback output left untouched) is modelled
  by an `Option`-valued result, `none` meaning the stored value is kept.
-/

namespace Biostar

/-! ## Python `round` on exact rationals

`results.py` stores rollup totals with `round(x, 6)`.  Python's builtin
`round` rounds half to even (banker's rounding); we model it on exact
rationals. -/

/-- Python's builtin `round` to an integer: nearest integer, ties to even. -/
def pyRound (q : ℚ) : ℤ :=
  if q - ⌊q⌋ < 1/2 then ⌊q⌋
  else if 1/2 < q - ⌊q⌋ then ⌊q⌋ + 1
  else if Even ⌊q⌋ then ⌊q⌋ else ⌊q⌋ + 1

/-- Python's `round(x, 6)` on exact rationals. -/
def pyRound6 (q : ℚ) : ℚ :=
  (pyRound (q * 1000000) : ℚ) / 1000000

theorem pyRound_le_of_le {a b : ℚ} (h : a ≤ b) : pyRound a ≤ pyRound b := by
  have hf : ⌊a⌋ ≤ ⌊b⌋ := Int.floor_le_floor h
  rcases lt_or_eq_of_le hf with hlt | heq
  · have h1 : pyRound a ≤ ⌊a⌋ + 1 := by
      unfold pyRound; split_ifs <;> omega
    have h2 : ⌊b⌋ ≤ pyRound b := by
      unfold pyRound; split_ifs <;> omega
    omega
  · have hr : a - (⌊a⌋ : ℚ) ≤ b - (⌊a⌋ : ℚ) := by linarith
    unfold pyRound
    rw [← heq]
    split_ifs <;> first | omega | linarith

theorem pyRound6_le_of_le {a b : ℚ} (h : a ≤ b) : pyRound6 a ≤ pyRound6 b := by
  unfold pyRound6
  have := @pyRound_le_of_le (a * 1000000) (b * 1000000) (by nlinarith)
  have hcast : (pyRound (a * 1000000) : ℚ) ≤ (pyRound (b * 1000000) : ℚ) := by
    exact_mod_cast this
  linarith

/-! ## Data model

`HardwareElement` rows of the in-memory `hardware-json` dictionary and
`Sample` rows of the samples data table, with the fields the core
computations consume.  Purely textual metadata fields (notes, handling,
…) never enter any computation and are identified by field *name* in
diff events, so they are not stored on the records themselves.  Numeric
cells are modelled as exact numbers; the `isinstance` checks of
`detect_sample_alerts`, which reject non-numeric cell contents, are
subsumed by the typing of the record. -/

structure Hw where
  id : String
  parentId : Option String
  level : ℕ
  isComponent : Bool
  valid : Bool
  /-- `"2D (Area)"` or `"3D (Volume)"`; the code tests `dim.startswith("2")`. -/
  dim : String
  area : ℚ
  volume : ℚ
  /-- `"Sampled"`, `"Unsampled - Implied"` or `"Unsampled - Spec"`. -/
  typ : String
  /-- analog id, or the sentinel `"-- Generic --"`. -/
  analogy : String
  impliedId : Option String
  spec : String
  group : Option String
  deriving Repr, DecidableEq, Inhabited

structure Sample where
  sampleId : String
  hardwareId : String
  /-- the code tests `s["PP Accountable"].lower() == "yes"`. -/
  ppAccountable : String
  sampledArea : ℚ
  sampledVolume : ℚ
  device : String
  deviceType : String
  technique : String
  pourFraction : ℚ
  cfu : ℤ
  deriving Repr, DecidableEq, Inhabited

/-- Python `str.lower()`, modelled characterwise. -/
def pyLower (s : String) : String := ⟨s.data.map Char.toLower⟩

/-- Python `str.strip()`, modelled characterwise. -/
def pyStrip (s : String) : String :=
  ⟨((s.data.dropWhile Char.isWhitespace).reverse.dropWhile Char.isWhitespace).reverse⟩

/-- Python `str.replace("-", " ")` for the one-character pattern used by
`resolve_sample_categorical`, modelled characterwise. -/
def pyDashSpace (s : String) : String :=
  ⟨s.data.map fun c => if c = '-' then ' ' else c⟩

/-- `hw["dim"].startswith("2")` (a one-character prefix test). -/
def Hw.is2D (hw : Hw) : Bool := hw.dim.data.head? == some '2'

/-- `s["PP Accountable"].lower() == "yes"`. -/
def Sample.accountable (s : Sample) : Bool := pyLower s.ppAccountable == "yes"

/-- Association-list lookup, modelling a Python `dict.get`. -/
def alookup {α : Type _} (l : List (String × α)) (k : String) : Option α :=
  (l.find? (fun p => p.1 == k)).map (·.2)

/-- Lookup of a hardware element by id (`hardware_dict[hw_id]`). -/
def hwLookup (hardware : List Hw) (i : String) : Option Hw :=
  hardware.find? (fun h => h.id == i)

/-! ## Catalog tables: `biostar/modules/data.py` -/

/-- One entry of `EFFICIENCY_CONFIG`: the `params` field is either the
Beta `[alpha, beta]` pair or an alias (the key of another entry). -/
structure EffEntry where
  params : String ⊕ (ℚ × ℚ)
  defaultFraction : ℚ
  deriving Repr, DecidableEq, Inhabited

/-- `EFFICIENCY_CONFIG` (data.py lines 662–759). -/
def EFFICIENCY_CONFIG : List (String × EffEntry) :=
  [ ("Swab;Puritan Cotton;NASA Standard",
      ⟨.inr (45.56431672969219, 100.24149680532281), 0.8⟩),
    ("Swab;Puritan Cotton;NASA Standard (w/ Membrane Filtration)",
      ⟨.inr (97.55218540553831, 191.9575261205754), 0.92⟩),
    ("Swab;Puritan Cotton;ESA Standard",
      ⟨.inl "Swab;Puritan Cotton;NASA Standard", 0.8⟩),
    ("Swab;Puritan Cotton;ESA Standard (w/ Membrane Filtration)",
      ⟨.inl "Swab;Puritan Cotton;NASA Standard (w/ Membrane Filtration)", 0.92⟩),
    ("Swab;Nylon-flocked;NASA Standard",
      ⟨.inr (9.579630660559655, 23.74082381095219), 0.8⟩),
    ("Swab;Nylon-flocked;NASA Standard (w/ Membrane Filtration)",
      ⟨.inl "Swab;Nylon-flocked;NASA Standard", 0.92⟩),
    ("Swab;Nylon-flocked;ESA Standard",
      ⟨.inr (68.16498856079723, 75.34025051456537), 0.8⟩),
    ("Swab;Nylon-flocked;ESA Standard (w/ Membrane Filtration)",
      ⟨.inl "Swab;Nylon-flocked;ESA Standard", 0.92⟩),
    ("Swab;Copan Polyester;NASA Standard",
      ⟨.inl "Swab;Copan Polyester;ESA Standard", 0.8⟩),
    ("Swab;Copan Polyester;NASA Standard (w/ Membrane Filtration)",
      ⟨.inl "Swab;Copan Polyester;ESA Standard", 0.92⟩),
    ("Swab;Copan Polyester;ESA Standard",
      ⟨.inr (6.052080310455172, 42.3645621731862), 0.8⟩),
    ("Swab;Copan Polyester;ESA Standard (w/ Membrane Filtration)",
      ⟨.inl "Swab;Copan Polyester;ESA Standard", 0.92⟩),
    ("Swab;Copan Cotton;NASA Standard",
      ⟨.inr (51.836071542660086, 362.8525007986206), 0.8⟩),
    ("Swab;Copan Cotton;NASA Standard (w/ Membrane Filtration)",
      ⟨.inl "Swab;Copan Cotton;NASA Standard", 0.92⟩),
    ("Swab;Copan Cotton;ESA Standard",
      ⟨.inl "Swab;Copan Cotton;NASA Standard", 0.8⟩),
    ("Swab;Copan Cotton;ESA Standard (w/ Membrane Filtration)",
      ⟨.inl "Swab;Copan Cotton;NASA Standard", 0.92⟩),
    ("Wipe;TX3211;NASA Standard",
      ⟨.inl "Wipe;TX3211;NASA Standard (w/ Membrane Filtration)", 0.25⟩),
    ("Wipe;TX3211;NASA Standard (w/ Membrane Filtration)",
      ⟨.inr (2.755428498737132, 7.13349822450835), 0.92⟩),
    ("Wipe;TX3211;ESA Standard",
      ⟨.inl "Wipe;TX3211;NASA Standard (w/ Membrane Filtration)", 0.25⟩),
    ("Wipe;TX3211;ESA Standard (w/ Membrane Filtration)",
      ⟨.inl "Wipe;TX3211;NASA Standard (w/ Membrane Filtration)", 0.92⟩),
    ("Wipe;TX3224;NASA Standard",
      ⟨.inl "Wipe;TX3224;NASA Standard (w/ Membrane Filtration)", 0.25⟩),
    ("Wipe;TX3224;NASA Standard (w/ Membrane Filtration)",
      ⟨.inr (38.27721767664384, 259.32814975926203), 0.92⟩),
    ("Wipe;TX3224;ESA Standard",
      ⟨.inl "Wipe;TX3224;NASA Standard (w/ Membrane Filtration)", 0.25⟩),
    ("Wipe;TX3224;ESA Standard (w/ Membrane Filtration)",
      ⟨.inl "Wipe;TX3224;NASA Standard (w/ Membrane Filtration)", 0.92⟩) ]

/-- `get_efficiency_params` (data.py lines 762–766): fetch the Beta
parameters, following a one-level alias.  The Python code raises
`KeyError` on an unknown tag; that failure is modelled by `none`. -/
def getEfficiencyParams (tag : String) : Option (ℚ × ℚ) :=
  match alookup EFFICIENCY_CONFIG tag with
  | none => none
  | some e =>
    match e.params with
    | .inr p => some p
    | .inl alias2 =>
      match alookup EFFICIENCY_CONFIG alias2 with
      | none => none
      | some e2 =>
        match e2.params with
        | .inr p => some p
        | .inl _ => none

/-- `SPEC_DENSITY_MAP` (data.py lines 274–290); `specDensity dim cls`
models `SPEC_DENSITY_MAP[dim][cls]`, with `KeyError` as `none`. -/
def specDensity (dim cls : String) : Option ℚ :=
  let m2d : List (String × ℚ) :=
    [ ("Surface, ISO<=7, Bio Control", 50),
      ("Surface, ISO<=7, Particle Control", 500),
      ("Surface, ISO=8, Bio Control", 1000),
      ("Surface, ISO=8, Particle Control", 10000),
      ("Surface, Uncontrolled", 100000),
      ("Enclosed Surface, Cleanroom, Particle & Bio Control", 5000),
      ("Enclosed Surface, Cleanroom, Only Particle Control", 100000),
      ("Enclosed Surface, Uncontrolled Manufacturing", 1000000) ]
  let m3d : List (String × ℚ) :=
    [ ("Encapsulated, Electronics Piece Parts", 150),
      ("Encapsulated, Non-metal Avg", 130),
      ("Encapsulated, Non-metal Other", 30) ]
  if dim == "2D (Area)" then alookup m2d cls
  else if dim == "3D (Volume)" then alookup m3d cls
  else none

/-- `HARDWARE_METADATA_COLUMNS` (data.py lines 233–244). -/
def HARDWARE_METADATA_COLUMNS : List String :=
  [ "handling", "ventilation", "composition", "cleaning_fab", "cleaning_pre",
    "cleaning_sit", "reduction_fab", "reduction_pre", "reduction_sit", "notes" ]

/-- `SAMPLE_TABLE_METADATA_COLUMNS` (data.py lines 160–166). -/
def SAMPLE_TABLE_METADATA_COLUMNS : List String :=
  [ "Assay Name", "Assay Date", "PP Cert #", "Control Type", "Sampling Notes" ]

/-- `resolve_sample_categorical` (data.py lines 821–841). -/
def resolveSampleCategorical (val : String) : String :=
  let categoricalMap : List (String × String) :=
    [ ("swab", "Swab"),
      ("wipe", "Wipe"),
      ("puritan cotton", "Puritan Cotton"),
      ("nylon flocked", "Nylon-flocked"),
      ("copan cotton", "Copan Cotton"),
      ("copan polyester", "Copan Polyester"),
      ("tx3211", "TX3211"),
      ("tx3224", "TX3224"),
      ("nasa standard (w/ membrane filtration)", "NASA Standard (w/ Membrane Filtration)"),
      ("nasa standard", "NASA Standard"),
      ("esa standard (w/ membrane filtration)", "ESA Standard (w/ Membrane Filtration)"),
      ("esa standard", "ESA Standard") ]
  let valStd := pyStrip (pyLower (pyDashSpace val))
  (alookup categoricalMap valStd).getD ""

/-! ## Sample validation: `biostar/modules/parsing.py` -/

/-- `sample_eff_tag` (parsing.py lines 37–45). -/
def sampleEffTag (s : Sample) : String :=
  resolveSampleCategorical s.device ++ ";" ++
    resolveSampleCategorical s.deviceType ++ ";" ++
    resolveSampleCategorical s.technique

/-- `detect_sample_alerts` (parsing.py lines 48–96).  The dictionary
access `hardware_dict[sample["Hardware ID"]]` raises `KeyError` for an
orphaned sample; this is modelled by `none`. -/
def detectSampleAlerts (s : Sample) (hardware : List Hw) : Option String :=
  match hwLookup hardware s.hardwareId with
  | none => none
  | some hw =>
    let extent := if hw.is2D then s.sampledArea else s.sampledVolume
    if ¬ (0 < extent) then some "area_vol"
    else
      match alookup EFFICIENCY_CONFIG (sampleEffTag s) with
      | none => some "categorical"
      | some e =>
        if e.params.isLeft then some "efficiency"
        else if ¬ (0 < s.pourFraction ∧ s.pourFraction ≤ 1) then some "fraction"
        else if ¬ (0 ≤ s.cfu) then some "cfu"
        else some ""

/-- `identify_valid_samples` (parsing.py lines 99–108): the sample ids
whose alert status is `""` or `"efficiency"`. -/
def identifyValidSamples (samples : List Sample) (hardware : List Hw) :
    List String :=
  (samples.filter fun s =>
      detectSampleAlerts s hardware == some "" ||
      detectSampleAlerts s hardware == some "efficiency").map (·.sampleId)

/-- `find_implied_hardware` (parsing.py lines 111–122). -/
def findImpliedHardware (hwTgt : Hw) (hardware : List Hw) : List Hw :=
  if (!hwTgt.valid) || hwTgt.typ != "Sampled" then []
  else
    hardware.filter fun hw =>
      hw.valid && hw.typ == "Unsampled - Implied" && hw.impliedId == some hwTgt.id

/-! ## Statistical update engine: `biostar/modules/update.py`

The data matrix handed to `likelihoods` / `generic_prior_solution` has
one row per usable sample: `[CFU, extent, pour_fraction, alpha, beta]`
(`sim_component`, lines 119–130).  We model a row as a structure; the
`alpha`/`beta` columns are the Beta recovery-efficiency parameters. -/

structure SampleRow where
  cfu : ℕ
  extent : ℚ
  fraction : ℚ
  alpha : ℚ
  betaPar : ℚ
  deriving Repr, DecidableEq, Inhabited

/-- Realized random draws: `beta i k a b` is the Beta(`a`,`b`) recovery
efficiency drawn for sample row `i` and particle `k`
(`rng.beta(data[i,3], data[i,4], size=len(lambda_samples))`);
`gammaDraw k shape scale` the `k`-th Gamma draw of `rng.gamma`;
`choiceP w k` the `k`-th index drawn by `rng.choice(..., p=w)`
(with replacement); `choiceNoRep n size k` the `k`-th index of
`rng.choice(n, size=size, replace=False)`; `poisson k r` the `k`-th
draw of `rng.poisson`. -/
structure RandomSource where
  beta : ℕ → ℕ → ℚ → ℚ → ℝ
  gammaDraw : ℕ → ℝ → ℝ → ℝ
  choiceP : List ℝ → ℕ → ℕ
  choiceNoRep : ℕ → ℕ → ℕ → ℕ
  poisson : ℕ → ℝ → ℕ

/-- `exposures = data[:, 1] * data[:, 2]` (update.py line 17). -/
def rowExposure (r : SampleRow) : ℚ := r.extent * r.fraction

/-- One expected rate entry:
`expected_rates = lambda_samples.reshape(-1, 1) * exposures * efficiencies.T`
(update.py line 23), for one particle `lam` and one sample row. -/
def expectedRate (lam : ℝ) (r : SampleRow) (eff : ℝ) : ℝ :=
  lam * (rowExposure r : ℚ) * eff

/-- One entry of the matrix
`log_lik = counts * np.log(expected_rates) - special.factorial(counts) - expected_rates`
(update.py line 25).  Note the code subtracts `factorial(counts)`, not
`log(factorial(counts))`. -/
noncomputable def codeLogLikTerm (c : ℕ) (rate : ℝ) : ℝ :=
  c * Real.log rate - (Nat.factorial c : ℝ) - rate

/-- The Poisson log-pmf `count*log(rate) - log(count!) - rate` as worded
by the specification ("all count likelihoods use the Poisson log-pmf"). -/
noncomputable def specPoissonLogPmf (c : ℕ) (rate : ℝ) : ℝ :=
  c * Real.log rate - Real.log (Nat.factorial c : ℝ) - rate

/-- The efficiency draw used for sample row `i`, particle `k`: the code
draws `rng.beta(data[i, 3], data[i, 4], size=len(lambda_samples))` for
each row (update.py lines 20–22). -/
def rowEff (rand : RandomSource) (rows : List SampleRow) (i k : ℕ) : ℝ :=
  rand.beta i k (rows.getD i default).alpha (rows.getD i default).betaPar

/-- The per-particle joint log-likelihood `log_lik.sum(axis=1)`
(update.py lines 25–27), as computed by the code. -/
noncomputable def jointLogLik (rows : List SampleRow) (rand : RandomSource) (lams : List ℝ)
    (k : ℕ) : ℝ :=
  ∑ i ∈ Finset.range rows.length,
    codeLogLikTerm (rows.getD i default).cfu
      (expectedRate (lams.getD k 0) (rows.getD i default) (rowEff rand rows i k))

/-- The same joint log-likelihood computed with the Poisson log-pmf of
the specification's wording, for comparison. -/
noncomputable def specJointLogLik (rows : List SampleRow) (rand : RandomSource) (lams : List ℝ)
    (k : ℕ) : ℝ :=
  ∑ i ∈ Finset.range rows.length,
    specPoissonLogPmf (rows.getD i default).cfu
      (expectedRate (lams.getD k 0) (rows.getD i default) (rowEff rand rows i k))

/-- `likelihoods(lambda_samples, data, log=False, joint=True)`
(update.py lines 8–33, as called from `update_analogy_prior` line 58):
one exponentiated joint log-likelihood per particle. -/
noncomputable def likelihoods (lams : List ℝ) (rows : List SampleRow) (rand : RandomSource) :
    List ℝ :=
  (List.range lams.length).map fun k => Real.exp (jointLogLik rows rand lams k)

/-- `weights = lik / np.sum(lik)` (update.py line 59). -/
noncomputable def importanceWeights (lams : List ℝ) (rows : List SampleRow)
    (rand : RandomSource) : List ℝ :=
  (likelihoods lams rows rand).map (· / (likelihoods lams rows rand).sum)

/-- The multiset of values to which `likelihoods` applies `np.log`:
exactly the entries of `expected_rates` (update.py line 25 applies
`np.log` elementwise to the whole matrix, with no guard). -/
noncomputable def likelihoodLogArguments (lams : List ℝ) (rows : List SampleRow)
    (rand : RandomSource) : List ℝ :=
  (List.range lams.length).flatMap fun k =>
    (List.range rows.length).map fun i =>
      expectedRate (lams.getD k 0) (rows.getD i default) (rowEff rand rows i k)

/-- `generic_prior_solution(data, resolution)` (update.py lines 36–45):
`rng.gamma(0.5 + cfu_total, 1 / (exposures * efficiencies.T).sum(axis=1))`.
Note numpy's `gamma(shape, scale)` takes a *scale*; the code passes the
reciprocal of the per-particle summed exposure×efficiency. -/
noncomputable def genericPriorSolution (rows : List SampleRow) (rand : RandomSource)
    (resolution : ℕ) : List ℝ :=
  let cfuTotal : ℕ := (rows.map (·.cfu)).sum
  (List.range resolution).map fun k =>
    rand.gammaDraw k ((0.5 : ℝ) + cfuTotal)
      (1 / ∑ i ∈ Finset.range rows.length,
        ((rowExposure (rows.getD i default) : ℚ) : ℝ) * rowEff rand rows i k)

/-- `update_analogy_prior(lambda_samples, data, resolution)`
(update.py lines 48–66): the generic analytic solution when the prior is
`None`, otherwise importance resampling of the analog's draws with
replacement according to the normalized likelihood weights. -/
noncomputable def updateAnalogyPrior (priorOpt : Option (List ℝ))
    (rows : List SampleRow) (rand : RandomSource) (resolution : ℕ) : List ℝ :=
  match priorOpt with
  | none => genericPriorSolution rows rand resolution
  | some lams =>
    let w := importanceWeights lams rows rand
    (List.range resolution).map fun k => lams.getD (rand.choiceP w k) 0

/-- `sim_cfu(lambda_samples, total_exposure)` (update.py lines 69–74):
one Poisson draw per scaled rate. -/
noncomputable def simCfu (lams : List ℝ) (expo : ℝ) (rand : RandomSource) : List ℕ :=
  (List.range lams.length).map fun k => rand.poisson k (lams.getD k 0 * expo)

/-- A simulation record: the dict returned by `sim_component`.  The
`lambda` entry is a scalar for spec components and a draw vector
otherwise; likewise `cfu` (integer draws). -/
structure SimRec where
  mode : String
  link : Option String
  lam : ℝ ⊕ List ℝ
  cfuDraws : ℝ ⊕ List ℕ

/-- One likelihood-data row of `samples_data` (update.py lines 119–130):
`[CFU, sampled extent, pour fraction, alpha, beta]`, the Beta parameters
coming from `get_efficiency_params(sample_eff_tag(row))`.  Usable
samples have a nonnegative CFU; the count is taken with `Int.toNat`. -/
def sampleToRow (hw : Hw) (s : Sample) : Option SampleRow :=
  (getEfficiencyParams (sampleEffTag s)).map fun p =>
    ⟨s.cfu.toNat, if hw.is2D then s.sampledArea else s.sampledVolume,
      s.pourFraction, p.1, p.2⟩

/-- The `samples_data` matrix of `sim_component`; `none` models the
`KeyError` raised when a sample's efficiency tag is unknown. -/
def samplesData (hw : Hw) (samples : List Sample) : Option (List SampleRow) :=
  samples.mapM (sampleToRow hw)

/-- The sample filter of `sim_component` (update.py lines 109–113):
rows whose `Hardware ID` matches and that are PP-accountable. -/
def accountableSamplesFor (hw : Hw) (samples : List Sample) : List Sample :=
  samples.filter fun s => s.hardwareId == hw.id && s.accountable

/-- `sim_component(hw, samples_list, current_sims, n_sims)`
(update.py lines 77–147).  `priorMap` models the external
`POSTERIOR_MAP` catalog (analog id → stored density draws); `none`
results model the `KeyError`/`TypeError` crashes of the Python code
(unknown spec class or analog, missing implied link or linked record,
generic analog with no samples). -/
noncomputable def simComponent (hw : Hw) (samplesList : List Sample)
    (sims : List (String × SimRec)) (priorMap : String → Option (List ℝ))
    (rand : RandomSource) (nSims : ℕ) : Option SimRec :=
  let expo : ℝ := ((if hw.is2D then hw.area else hw.volume : ℚ) : ℝ)
  if hw.typ == "Unsampled - Spec" then
    (specDensity hw.dim hw.spec).map fun d =>
      ⟨"spec", none, .inl (d : ℝ), .inl ((d : ℝ) * expo)⟩
  else if hw.typ == "Unsampled - Implied" then
    match hw.impliedId with
    | none => none
    | some impliedId =>
      match alookup sims impliedId with
      | none => none
      | some impliedSim =>
        match impliedSim.lam with
        | .inl s =>
          some ⟨"implied", some impliedId, .inl s,
            .inl ((rand.poisson 0 (s * expo) : ℕ) : ℝ)⟩
        | .inr lams =>
          some ⟨"implied", some impliedId, .inr lams,
            .inr (simCfu lams expo rand)⟩
  else
    let priorRes : Option (Option (List ℝ)) :=
      if hw.analogy == "-- Generic --" then some none
      else (priorMap hw.analogy).map some
    match priorRes with
    | none => none
    | some priorOpt =>
      let samples := accountableSamplesFor hw samplesList
      if samples.isEmpty then
        match priorOpt with
        | none => none
        | some p =>
          let draws := (List.range nSims).map fun k =>
            p.getD (rand.choiceNoRep p.length nSims k) 0
          some ⟨"prior", some hw.analogy, .inr draws,
            .inr (simCfu draws expo rand)⟩
      else
        match samplesData hw samples with
        | none => none
        | some rows =>
          let draws := updateAnalogyPrior priorOpt rows rand 1000
          some ⟨"posterior", some hw.analogy, .inr draws,
            .inr (simCfu draws expo rand)⟩

/-! ## List helper lemmas -/

theorem list_sum_map_range (f : ℕ → ℝ) (n : ℕ) :
    ((List.range n).map f).sum = ∑ i ∈ Finset.range n, f i := by
  induction n with
  | zero => simp
  | succ n ih =>
    rw [List.range_succ, List.map_append, List.sum_append, Finset.sum_range_succ, ih]
    simp

theorem list_getD_map_range {α : Type _} (f : ℕ → α) {n k : ℕ} (hk : k < n) (d : α) :
    ((List.range n).map f).getD k d = f k := by
  rw [List.getD_eq_getElem _ _ (by simpa using hk)]
  simp

theorem list_sum_map_div (l : List ℝ) (c : ℝ) :
    (l.map (· / c)).sum = l.sum / c := by
  induction l with
  | nil => simp
  | cons a l ih => simp [ih, add_div]

theorem list_map_getD_range {α : Type _} (p : List α) (d : α) :
    (List.range p.length).map (fun i => p.getD i d) = p := by
  apply List.ext_getElem
  · simp
  · intro i h1 h2
    simp [List.getD_eq_getElem _ _ h2, List.getElem?_eq_getElem h2]

/-! ## The importance weights are the normalized joint Poisson likelihoods

The code's log-likelihood matrix differs from the Poisson log-pmf matrix
by a term that is constant across particles (it depends only on the CFU
counts), so after normalization the importance weights coincide with the
normalized joint Poisson likelihoods. -/

/-- The per-particle-constant difference between the code's joint
log-likelihood and the joint Poisson log-pmf. -/
noncomputable def logFactorialShift (rows : List SampleRow) : ℝ :=
  ∑ i ∈ Finset.range rows.length,
    ((Nat.factorial (rows.getD i default).cfu : ℝ) -
      Real.log (Nat.factorial (rows.getD i default).cfu : ℝ))

theorem jointLogLik_eq_spec_sub_shift (rows : List SampleRow) (rand : RandomSource)
    (lams : List ℝ) (k : ℕ) :
    jointLogLik rows rand lams k =
      specJointLogLik rows rand lams k - logFactorialShift rows := by
  unfold jointLogLik specJointLogLik logFactorialShift
  rw [← Finset.sum_sub_distrib]
  refine Finset.sum_congr rfl fun i _ => ?_
  unfold codeLogLikTerm specPoissonLogPmf
  ring

theorem importanceWeights_getD_eq (lams : List ℝ) (rows : List SampleRow)
    (rand : RandomSource) {k : ℕ} (hk : k < lams.length) :
    (importanceWeights lams rows rand).getD k 0 =
      Real.exp (specJointLogLik rows rand lams k) /
        ∑ j ∈ Finset.range lams.length, Real.exp (specJointLogLik rows rand lams j) := by
  unfold importanceWeights likelihoods
  rw [List.map_map]
  rw [list_getD_map_range _ hk]
  simp only [Function.comp]
  rw [list_sum_map_range]
  simp only [jointLogLik_eq_spec_sub_shift, Real.exp_sub]
  rw [← Finset.sum_div]
  exact div_div_div_cancel_right₀ (Real.exp_ne_zero _) _ _

theorem importanceWeights_sum_eq_one (lams : List ℝ) (rows : List SampleRow)
    (rand : RandomSource) (h : lams ≠ []) :
    (importanceWeights lams rows rand).sum = 1 := by
  unfold importanceWeights
  rw [list_sum_map_div]
  apply div_self
  unfold likelihoods
  rw [list_sum_map_range]
  have hpos : 0 < ∑ j ∈ Finset.range lams.length, Real.exp (jointLogLik rows rand lams j) := by
    apply Finset.sum_pos (fun j _ => Real.exp_pos _)
    simpa [Finset.nonempty_range_iff, List.length_eq_zero] using h
  exact ne_of_gt hpos

/-! ## Claim C1: the per-sample "log-pmf" and the factorial term -/

/-- **C1.** The claim states that `likelihoods` computes each sample's
count likelihood as the Poisson log-pmf
`count*log(rate) - log(count!) - rate`.  The code (update.py line 25)
instead subtracts `special.factorial(counts)` — the factorial itself,
not its logarithm.  At the concrete input CFU count = 2 and expected
rate `λ·exposure·efficiency = 1`, the code's per-sample term evaluates
to `-3` while the Poisson log-pmf is `-(log 2 + 1) ≈ -1.693`; the two
differ.  (The error is constant in `λ`, so the *normalized* importance
weights are unaffected; see the C2 theorem.) -/
theorem likelihoods_term_differs_from_poisson_log_pmf :
    codeLogLikTerm 2 1 = -3 ∧
    specPoissonLogPmf 2 1 = -(Real.log 2 + 1) ∧
    codeLogLikTerm 2 1 ≠ specPoissonLogPmf 2 1 := by
  have hfac : (Nat.factorial 2 : ℝ) = 2 := by norm_num [Nat.factorial]
  have hcode : codeLogLikTerm 2 1 = -3 := by
    simp [codeLogLikTerm, Real.log_one, hfac]; norm_num
  have hspec : specPoissonLogPmf 2 1 = -(Real.log 2 + 1) := by
    simp [specPoissonLogPmf, Real.log_one, hfac]; ring
  refine ⟨hcode, hspec, ?_⟩
  rw [hcode, hspec]
  intro h
  have hlog : Real.log 2 = 2 := by linarith
  have : Real.log 2 < 1 := by
    have h2 : (2 : ℝ) < Real.exp 1 := by
      have := @Real.add_one_lt_exp 1 (by norm_num)
      linarith
    have := Real.log_lt_log (by norm_num : (0:ℝ) < 2) h2
    simpa using this
  linarith

/-! ## Claim C10: no guard before the logarithm -/

/-- A trivial realized random source used for concrete evaluations
(all Beta draws equal to 1, everything else zero). -/
noncomputable def unitRand : RandomSource :=
  ⟨fun _ _ _ _ => 1, fun _ _ _ => 0, fun _ _ => 0, fun _ _ _ => 0, fun _ _ => 0⟩

/-- **C10, counterexample.**  The claim states that the likelihood
computation guards against a zero expected rate before taking its
logarithm, so that `log 0` is never evaluated even when a lambda draw is
zero.  There is no such guard: with the single lambda draw `0` and one
sample row (extent 1, pour fraction 1, efficiency draw 1), the value `0`
is among the arguments handed to `np.log`. -/
theorem likelihoods_log_zero_counterexample :
    (0 : ℝ) ∈ likelihoodLogArguments [0] [⟨0, 1, 1, 1, 1⟩] unitRand := by
  unfold likelihoodLogArguments
  refine List.mem_flatMap.2 ⟨0, ?_, ?_⟩
  · simp
  · refine List.mem_map.2 ⟨0, ?_, ?_⟩
    · simp
    · simp [expectedRate]

/-- **C10, amended.**  `likelihoods` applies `np.log` to every entry of
the `expected_rates` matrix with no zero guard: `log` is evaluated at
zero exactly when some particle/sample pair has
`λ·(extent·fraction)·efficiency = 0` — in particular whenever a lambda
draw, an extent, a pour fraction, or an efficiency draw is zero (in the
Python code this produces `-inf`/`NaN` downstream rather than an
exception at the `log` itself). -/
theorem likelihoods_no_zero_guard (lams : List ℝ) (rows : List SampleRow)
    (rand : RandomSource) :
    (0 : ℝ) ∈ likelihoodLogArguments lams rows rand ↔
      ∃ k < lams.length, ∃ i < rows.length,
        expectedRate (lams.getD k 0) (rows.getD i default) (rowEff rand rows i k) = 0 := by
  simp only [likelihoodLogArguments, List.mem_flatMap, List.mem_map, List.mem_range]

/-! ## Claim C2: named-analog importance resampling -/

/-- **C2.**  For a Sampled component with a non-generic analog and at
least one accountable sample (the caller passes only usable samples),
`sim_component` performs importance resampling: it returns
mode = `"posterior"` with the analog as link; the density draws are the
prior catalog draws re-indexed by the `rng.choice` outcome that is
handed exactly the normalized weight vector; the weights sum to 1; and
each weight equals the particle's joint Poisson likelihood across all
samples divided by the total — the factorial discrepancy recorded for
C1 is constant per sample and cancels in the normalization. -/
theorem named_analog_importance_resampling
    (hw : Hw) (samplesList : List Sample) (sims : List (String × SimRec))
    (priorMap : String → Option (List ℝ)) (rand : RandomSource) (nSims : ℕ)
    (prior : List ℝ) (rows : List SampleRow)
    (htyp : hw.typ = "Sampled") (hana : hw.analogy ≠ "-- Generic --")
    (hprior : priorMap hw.analogy = some prior) (hpn : prior ≠ [])
    (hne : accountableSamplesFor hw samplesList ≠ [])
    (hrows : samplesData hw (accountableSamplesFor hw samplesList) = some rows) :
    simComponent hw samplesList sims priorMap rand nSims =
      some ⟨"posterior", some hw.analogy,
        .inr ((List.range 1000).map fun k =>
          prior.getD (rand.choiceP (importanceWeights prior rows rand) k) 0),
        .inr (simCfu ((List.range 1000).map fun k =>
            prior.getD (rand.choiceP (importanceWeights prior rows rand) k) 0)
          ((if hw.is2D then hw.area else hw.volume : ℚ) : ℝ) rand)⟩ ∧
    (importanceWeights prior rows rand).sum = 1 ∧
    ∀ k, k < prior.length →
      (importanceWeights prior rows rand).getD k 0 =
        Real.exp (specJointLogLik rows rand prior k) /
          ∑ j ∈ Finset.range prior.length, Real.exp (specJointLogLik rows rand prior j) := by
  have hb1 : (hw.typ == "Unsampled - Spec") = false := by
    simp [htyp]
  have hb2 : (hw.typ == "Unsampled - Implied") = false := by
    simp [htyp]
  have hb3 : (hw.analogy == "-- Generic --") = false := by
    simpa using hana
  have hempty : (accountableSamplesFor hw samplesList).isEmpty = false := by
    simpa [List.isEmpty_iff] using hne
  refine ⟨?_, importanceWeights_sum_eq_one _ _ _ hpn,
    fun k hk => importanceWeights_getD_eq _ _ _ hk⟩
  simp only [simComponent, hb1, hb2, hb3, Bool.false_eq_true, if_false, hprior,
    Option.map_some', hempty, hrows, updateAnalogyPrior]

/-- Concrete inputs for the C2 witness: a 2D Sampled component with
analog `"AnalogA"`, one accountable valid sample, and a two-draw prior. -/
def hwC2 : Hw :=
  ⟨"HW1", none, 2, true, true, "2D (Area)", 1, 0, "Sampled", "AnalogA", none, "", none⟩

def sampleC2 : Sample :=
  ⟨"S1", "HW1", "Yes", 5, 0, "Swab", "Puritan Cotton", "NASA Standard", 1, 3⟩

noncomputable def priorMapC2 : String → Option (List ℝ) :=
  fun a => if a = "AnalogA" then some [1, 2] else none

def rowsC2 : List SampleRow :=
  [⟨3, 5, 1, 45.56431672969219, 100.24149680532281⟩]

/-- Witness for C2 at the concrete inputs above. -/
theorem named_analog_importance_resampling_witness :
    simComponent hwC2 [sampleC2] [] priorMapC2 unitRand 7 =
      some ⟨"posterior", some "AnalogA",
        .inr ((List.range 1000).map fun k =>
          [1, 2].getD (unitRand.choiceP (importanceWeights [1, 2] rowsC2 unitRand) k) 0),
        .inr (simCfu ((List.range 1000).map fun k =>
            [1, 2].getD (unitRand.choiceP (importanceWeights [1, 2] rowsC2 unitRand) k) 0)
          ((if hwC2.is2D then hwC2.area else hwC2.volume : ℚ) : ℝ) unitRand)⟩ ∧
    (importanceWeights [1, 2] rowsC2 unitRand).sum = 1 ∧
    ∀ k, k < ([1, 2] : List ℝ).length →
      (importanceWeights [1, 2] rowsC2 unitRand).getD k 0 =
        Real.exp (specJointLogLik rowsC2 unitRand [1, 2] k) /
          ∑ j ∈ Finset.range ([1, 2] : List ℝ).length,
            Real.exp (specJointLogLik rowsC2 unitRand [1, 2] j) := by
  have h := named_analog_importance_resampling hwC2 [sampleC2] [] priorMapC2 unitRand 7
    [1, 2] rowsC2 rfl (by decide) rfl (by simp) (by decide) rfl
  simpa using h

/-! ## Claim C3: named analog with zero usable samples -/

def hwC3 : Hw :=
  ⟨"HW3", none, 2, true, true, "2D (Area)", 1, 0, "Sampled", "AnalogA", none, "", none⟩

noncomputable def priorMapC3 : String → Option (List ℝ) :=
  fun a => if a = "AnalogA" then some [1, 2] else none

/-- A random source whose without-replacement choice over two indices
swaps them (`k ↦ 1 - k`). -/
noncomputable def swapRand : RandomSource :=
  ⟨fun _ _ _ _ => 1, fun _ _ _ => 0, fun _ _ => 0, fun _ _ k => 1 - k, fun _ _ => 0⟩

/-- **C3, counterexample.**  The claim states that a Sampled component
with a named analog and zero usable samples gets the analog's raw
catalog draws *verbatim*.  The code (update.py line 139) instead takes
`analogy_prior[rng.choice(len(analogy_prior), size=n_sims, replace=False)]`,
a random without-replacement re-indexing.  With catalog draws `[1, 2]`
and the choice outcome that swaps the two indices, the returned draws
are `[2, 1] ≠ [1, 2]`. -/
theorem named_analog_prior_not_verbatim_counterexample :
    ∃ rec : SimRec, simComponent hwC3 [] [] priorMapC3 swapRand 2 = some rec ∧
      rec.mode = "prior" ∧ rec.lam = Sum.inr [(2 : ℝ), 1] ∧
      rec.lam ≠ Sum.inr [(1 : ℝ), 2] := by
  refine ⟨⟨"prior", some "AnalogA", .inr [2, 1],
      .inr (simCfu [2, 1] ((if hwC3.is2D then hwC3.area else hwC3.volume : ℚ) : ℝ) swapRand)⟩,
    ?_, rfl, rfl, ?_⟩
  · simp [simComponent, hwC3, priorMapC3, accountableSamplesFor, swapRand, List.range_succ]
  · intro h
    rw [Sum.inr.injEq] at h
    have h0 := congrArg (fun l => l.getD 0 (0:ℝ)) h
    norm_num at h0

/-- **C3, amended.**  With a named analog and zero usable samples the
returned record has mode = `"prior"`, links the analog, and its density
draws are the catalog draws at a without-replacement random index
selection of size `n_sims` (the deployed configuration draws
`n_sims = 1000` of a larger thinned catalog): as a multiset the draws
are a sub-multiset of the catalog's, and a permutation of the whole
catalog exactly when the catalog holds `n_sims` draws — but never the
stored array verbatim in general. -/
theorem named_analog_prior_subsample
    (hw : Hw) (samplesList : List Sample) (sims : List (String × SimRec))
    (priorMap : String → Option (List ℝ)) (rand : RandomSource) (nSims : ℕ)
    (p : List ℝ)
    (htyp : hw.typ = "Sampled") (hana : hw.analogy ≠ "-- Generic --")
    (hprior : priorMap hw.analogy = some p)
    (hempty : accountableSamplesFor hw samplesList = [])
    (hinj : ∀ k1, k1 < nSims → ∀ k2, k2 < nSims →
      rand.choiceNoRep p.length nSims k1 = rand.choiceNoRep p.length nSims k2 → k1 = k2)
    (hbound : ∀ k, k < nSims → rand.choiceNoRep p.length nSims k < p.length) :
    simComponent hw samplesList sims priorMap rand nSims =
      some ⟨"prior", some hw.analogy,
        .inr ((List.range nSims).map fun k =>
          p.getD (rand.choiceNoRep p.length nSims k) 0),
        .inr (simCfu ((List.range nSims).map fun k =>
            p.getD (rand.choiceNoRep p.length nSims k) 0)
          ((if hw.is2D then hw.area else hw.volume : ℚ) : ℝ) rand)⟩ ∧
    ((List.range nSims).map fun k =>
      p.getD (rand.choiceNoRep p.length nSims k) 0).Subperm p ∧
    (nSims = p.length →
      ((List.range nSims).map fun k =>
        p.getD (rand.choiceNoRep p.length nSims k) 0).Perm p) := by
  have hb1 : (hw.typ == "Unsampled - Spec") = false := by simp [htyp]
  have hb2 : (hw.typ == "Unsampled - Implied") = false := by simp [htyp]
  have hb3 : (hw.analogy == "-- Generic --") = false := by simpa using hana
  have hmap : ((List.range nSims).map fun k =>
      p.getD (rand.choiceNoRep p.length nSims k) 0) =
      ((List.range nSims).map fun k => rand.choiceNoRep p.length nSims k).map
        (fun i => p.getD i 0) := by
    rw [List.map_map]; rfl
  have hnodup : ((List.range nSims).map fun k =>
      rand.choiceNoRep p.length nSims k).Nodup := by
    refine List.Nodup.map_on ?_ (List.nodup_range _)
    intro x hx y hy hxy
    exact hinj x (List.mem_range.1 hx) y (List.mem_range.1 hy) hxy
  refine ⟨?_, ?_, ?_⟩
  · simp only [simComponent, hb1, hb2, hb3, Bool.false_eq_true, if_false, hprior,
      Option.map_some', hempty, List.isEmpty_nil, if_true]
  · -- the draws are a sub-multiset of the catalog draws
    rw [hmap]
    have hsub : ((List.range nSims).map fun k =>
        rand.choiceNoRep p.length nSims k).Subperm (List.range p.length) := by
      refine List.Nodup.subperm hnodup ?_
      intro x hx
      simp only [List.mem_map, List.mem_range] at hx
      obtain ⟨k, hk, rfl⟩ := hx
      exact List.mem_range.2 (hbound k hk)
    obtain ⟨l0, hp0, hs0⟩ := hsub
    have hmsub : (((List.range nSims).map fun k =>
        rand.choiceNoRep p.length nSims k).map (fun i => p.getD i 0)).Subperm
        ((List.range p.length).map (fun i => p.getD i 0)) :=
      ⟨l0.map (fun i => p.getD i 0), hp0.map _, hs0.map _⟩
    rwa [list_map_getD_range p 0] at hmsub
  · -- a permutation of the whole catalog when the sizes match
    intro hsize
    subst hsize
    rw [hmap]
    have hperm : ((List.range p.length).map fun k =>
        rand.choiceNoRep p.length p.length k).Perm (List.range p.length) := by
      apply List.perm_of_nodup_nodup_toFinset_eq hnodup (List.nodup_range _)
      apply Finset.eq_of_subset_of_card_le
      · intro x hx
        simp only [List.mem_toFinset, List.mem_map, List.mem_range] at hx
        obtain ⟨k, hk, rfl⟩ := hx
        simpa [List.mem_toFinset, List.mem_range] using hbound k hk
      · rw [List.toFinset_card_of_nodup hnodup,
          List.toFinset_card_of_nodup (List.nodup_range _)]
        simp
    refine List.Perm.trans (hperm.map _) ?_
    rw [list_map_getD_range p 0]

def hwC3w : Hw :=
  ⟨"HW3W", none, 2, true, true, "2D (Area)", 1, 0, "Sampled", "AnalogB", none, "", none⟩

noncomputable def priorMapC3w : String → Option (List ℝ) :=
  fun a => if a = "AnalogB" then some [3, 4] else none

/-- Witness for the amended C3 at concrete inputs (catalog `[3, 4]`,
swapping choice outcome): once as a strict subsample of size 1 — the
deployed shape, `n_sims` below the catalog size — and once size-matched,
where the draws are a permutation of the whole catalog. -/
theorem named_analog_prior_subsample_witness :
    ((simComponent hwC3w [] [] priorMapC3w swapRand 1 =
      some ⟨"prior", some "AnalogB",
        .inr ((List.range 1).map fun k =>
          ([3, 4] : List ℝ).getD (swapRand.choiceNoRep 2 1 k) 0),
        .inr (simCfu ((List.range 1).map fun k =>
            ([3, 4] : List ℝ).getD (swapRand.choiceNoRep 2 1 k) 0)
          ((if hwC3w.is2D then hwC3w.area else hwC3w.volume : ℚ) : ℝ) swapRand)⟩) ∧
    ((List.range 1).map fun k =>
      ([3, 4] : List ℝ).getD (swapRand.choiceNoRep 2 1 k) 0).Subperm [3, 4]) ∧
    (simComponent hwC3w [] [] priorMapC3w swapRand 2 =
      some ⟨"prior", some "AnalogB",
        .inr ((List.range 2).map fun k =>
          ([3, 4] : List ℝ).getD (swapRand.choiceNoRep 2 2 k) 0),
        .inr (simCfu ((List.range 2).map fun k =>
            ([3, 4] : List ℝ).getD (swapRand.choiceNoRep 2 2 k) 0)
          ((if hwC3w.is2D then hwC3w.area else hwC3w.volume : ℚ) : ℝ) swapRand)⟩) ∧
    ((List.range 2).map fun k =>
      ([3, 4] : List ℝ).getD (swapRand.choiceNoRep 2 2 k) 0).Perm [3, 4] := by
  have h1 := named_analog_prior_subsample hwC3w [] [] priorMapC3w swapRand 1 [3, 4]
    rfl (by decide) rfl rfl
    (by intro k1 hk1 k2 hk2 he; omega)
    (by intro k hk; simp [swapRand]; omega)
  have h2 := named_analog_prior_subsample hwC3w [] [] priorMapC3w swapRand 2 [3, 4]
    rfl (by decide) rfl rfl
    (by intro k1 hk1 k2 hk2 he; simp only [swapRand] at he; omega)
    (by intro k hk; simp [swapRand]; omega)
  exact ⟨⟨h1.1, by simpa using h1.2.1⟩, h2.1, by simpa using h2.2.2 rfl⟩

/-! ## Claim C4: generic prior, conjugate Gamma posterior -/

/-- Shape of the rows produced by `samplesData`: one row per sample, in
order, carrying the sample's CFU count, dimension-matched extent, pour
fraction, and the Beta efficiency parameters resolved from its
(device, device-type, technique) tag. -/
theorem samplesData_spec (hw : Hw) (ss : List Sample) (rows : List SampleRow)
    (h : samplesData hw ss = some rows) :
    rows.length = ss.length ∧
    ∀ j, j < ss.length → ∃ pr : ℚ × ℚ,
      getEfficiencyParams (sampleEffTag (ss.getD j default)) = some pr ∧
      rows.getD j default =
        ⟨(ss.getD j default).cfu.toNat,
          (if hw.is2D then (ss.getD j default).sampledArea
            else (ss.getD j default).sampledVolume),
          (ss.getD j default).pourFraction, pr.1, pr.2⟩ := by
  induction ss generalizing rows with
  | nil =>
    simp only [samplesData, List.mapM_nil, Option.pure_def, Option.some.injEq] at h
    subst h
    exact ⟨rfl, fun j hj => absurd hj (by simp)⟩
  | cons a l ih =>
    rw [samplesData, List.mapM_cons] at h
    simp only [Option.bind_eq_bind, Option.bind_eq_some, Option.pure_def,
      Option.some.injEq] at h
    obtain ⟨b, hb, bs, hbs, hrows⟩ := h
    have hrec := ih bs hbs
    subst hrows
    constructor
    · simp [hrec.1]
    · intro j hj
      cases j with
      | zero =>
        simp only [sampleToRow, Option.map_eq_some'] at hb
        obtain ⟨pr, hpr, hb⟩ := hb
        exact ⟨pr, by simpa using hpr, by simp [← hb]⟩
      | succ j =>
        have := hrec.2 j (by simpa using hj)
        simpa using this

/-- **C4.**  For a Sampled component with the generic
(`"-- Generic --"`) prior and at least one usable accountable sample,
the posterior density draws are drawn from the conjugate Gamma
solution: the `k`-th draw is a Gamma variate with shape
`0.5 + ΣCFU` (summed over the usable samples) and numpy *scale*
`1 / Σⱼ exposureⱼ·efficiencyⱼₖ` — i.e. *rate* `Σⱼ exposureⱼ·efficiencyⱼₖ`,
where `exposureⱼ = extentⱼ·pour fractionⱼ` and `efficiencyⱼₖ` is the
Beta(`αⱼ`,`βⱼ`) draw for the (sample `j`, particle `k`) pair with
`(αⱼ, βⱼ)` resolved from sample `j`'s efficiency tag; mode is
`"posterior"`. -/
theorem generic_prior_gamma_posterior
    (hw : Hw) (samplesList : List Sample) (sims : List (String × SimRec))
    (priorMap : String → Option (List ℝ)) (rand : RandomSource) (nSims : ℕ)
    (rows : List SampleRow)
    (htyp : hw.typ = "Sampled") (hana : hw.analogy = "-- Generic --")
    (hne : accountableSamplesFor hw samplesList ≠ [])
    (hrows : samplesData hw (accountableSamplesFor hw samplesList) = some rows) :
    simComponent hw samplesList sims priorMap rand nSims =
      some ⟨"posterior", some hw.analogy,
        .inr ((List.range 1000).map fun k =>
          rand.gammaDraw k ((0.5 : ℝ) + ((rows.map SampleRow.cfu).sum : ℕ))
            (1 / ∑ i ∈ Finset.range rows.length,
              ((rowExposure (rows.getD i default) : ℚ) : ℝ) * rowEff rand rows i k)),
        .inr (simCfu (genericPriorSolution rows rand 1000)
          ((if hw.is2D then hw.area else hw.volume : ℚ) : ℝ) rand)⟩ ∧
    rows.length = (accountableSamplesFor hw samplesList).length ∧
    (∀ j, j < rows.length → ∃ pr : ℚ × ℚ,
      getEfficiencyParams
        (sampleEffTag ((accountableSamplesFor hw samplesList).getD j default)) = some pr ∧
      rows.getD j default =
        ⟨((accountableSamplesFor hw samplesList).getD j default).cfu.toNat,
          (if hw.is2D then ((accountableSamplesFor hw samplesList).getD j default).sampledArea
            else ((accountableSamplesFor hw samplesList).getD j default).sampledVolume),
          ((accountableSamplesFor hw samplesList).getD j default).pourFraction,
          pr.1, pr.2⟩) := by
  have hspec := samplesData_spec hw _ rows hrows
  have hb1 : (hw.typ == "Unsampled - Spec") = false := by simp [htyp]
  have hb2 : (hw.typ == "Unsampled - Implied") = false := by simp [htyp]
  have hb3 : (hw.analogy == "-- Generic --") = true := by simp [hana]
  have hempty : (accountableSamplesFor hw samplesList).isEmpty = false := by
    simpa [List.isEmpty_iff] using hne
  refine ⟨?_, hspec.1, fun j hj => hspec.2 j (hspec.1 ▸ hj)⟩
  simp only [simComponent, hb1, hb2, hb3, Bool.false_eq_true, if_false, if_true,
    hempty, hrows, updateAnalogyPrior, genericPriorSolution]

def hwC4 : Hw :=
  ⟨"HW4", none, 2, true, true, "2D (Area)", 1, 0, "Sampled", "-- Generic --", none, "", none⟩

def sampleC4 : Sample :=
  ⟨"S4", "HW4", "Yes", 5, 0, "Swab", "Copan Cotton", "ESA Standard", 1, 7⟩

def rowsC4 : List SampleRow :=
  [⟨7, 5, 1, 51.836071542660086, 362.8525007986206⟩]

/-- Witness for C4 at the concrete inputs above (note the `ESA Standard`
technique resolves through the alias to the `NASA Standard` Beta
parameters). -/
theorem generic_prior_gamma_posterior_witness :
    simComponent hwC4 [sampleC4] [] (fun _ => none) unitRand 3 =
      some ⟨"posterior", some "-- Generic --",
        .inr ((List.range 1000).map fun k =>
          unitRand.gammaDraw k ((0.5 : ℝ) + ((rowsC4.map SampleRow.cfu).sum : ℕ))
            (1 / ∑ i ∈ Finset.range rowsC4.length,
              ((rowExposure (rowsC4.getD i default) : ℚ) : ℝ) * rowEff unitRand rowsC4 i k)),
        .inr (simCfu (genericPriorSolution rowsC4 unitRand 1000)
          ((if hwC4.is2D then hwC4.area else hwC4.volume : ℚ) : ℝ) unitRand)⟩ ∧
    rowsC4.length = (accountableSamplesFor hwC4 [sampleC4]).length ∧
    (∀ j, j < rowsC4.length → ∃ pr : ℚ × ℚ,
      getEfficiencyParams
        (sampleEffTag ((accountableSamplesFor hwC4 [sampleC4]).getD j default)) = some pr ∧
      rowsC4.getD j default =
        ⟨((accountableSamplesFor hwC4 [sampleC4]).getD j default).cfu.toNat,
          (if hwC4.is2D then ((accountableSamplesFor hwC4 [sampleC4]).getD j default).sampledArea
            else ((accountableSamplesFor hwC4 [sampleC4]).getD j default).sampledVolume),
          ((accountableSamplesFor hwC4 [sampleC4]).getD j default).pourFraction,
          pr.1, pr.2⟩) := by
  exact generic_prior_gamma_posterior hwC4 [sampleC4] [] (fun _ => none) unitRand 3 rowsC4
    rfl rfl (by decide) rfl

/-! ## Rollup aggregator: `store_sims_rollups` (results.py lines 850–1001)

The aggregation is pure field arithmetic on the stored JSON values, so
it is modelled over exact rationals.  A stored `lambda`/`cfu` entry is a
scalar (spec components, or an all-spec rollup) or a draw vector; numpy
broadcasting of a scalar against a vector is modelled in `QVal.add`,
and vector+vector addition pointwise (in the tool all draw vectors share
the fixed resolution; numpy raises on mismatched lengths, which is not
reachable and not modelled). -/

inductive QVal
  | scalar (q : ℚ)
  | vec (l : List ℚ)
  deriving Repr, DecidableEq, Inhabited

/-- numpy `+` with scalar broadcasting. -/
def QVal.add : QVal → QVal → QVal
  | .scalar a, .scalar b => .scalar (a + b)
  | .scalar a, .vec l => .vec (l.map (a + ·))
  | .vec l, .scalar b => .vec (l.map (· + b))
  | .vec l, .vec m => .vec (List.zipWith (· + ·) l m)

/-- numpy scalar `*`. -/
def QVal.smul (c : ℚ) : QVal → QVal
  | .scalar a => .scalar (c * a)
  | .vec l => .vec (l.map (c * ·))

/-- numpy scalar `/`. -/
def QVal.divBy (c : ℚ) : QVal → QVal
  | .scalar a => .scalar (a / c)
  | .vec l => .vec (l.map (· / c))

/-- One per-dimension aggregation result dict
(`{"lambda": …, "cfu": …, "total": …, "sampled": …}`). -/
structure AggRes where
  lam : QVal
  cfuV : QVal
  total : ℚ
  sampled : ℚ
  deriving Repr, DecidableEq, Inhabited

/-- `empty_res = {"lambda": 0, "cfu": 0, "total": 0, "sampled": 0}`
(results.py line 865). -/
def emptyRes : AggRes := ⟨.scalar 0, .scalar 0, 0, 0⟩

/-- The stored simulation values a rollup reads
(`sims["sims"][child_id]["lambda"]` / `["cfu"]`). -/
structure QSim where
  lam : QVal
  cfuV : QVal
  deriving Repr, DecidableEq, Inhabited

/-- The (in)eligibility test of `handle_child` (results.py lines
871–882): a component contributes unless it is invalid, or has the
generic analog and no valid PP-accountable sample. -/
def childEligible (hw : Hw) (samples : List Sample) (valids : List String) : Bool :=
  hw.valid && (hw.analogy != "-- Generic --" ||
    !((samples.filter fun s =>
        s.hardwareId == hw.id && s.accountable && valids.contains s.sampleId).isEmpty))

/-- The `sampled` sum of `handle_child` (results.py lines 890–900):
total sampled area of the component's valid PP-accountable samples. -/
def validAccountableSampledArea (hw : Hw) (samples : List Sample)
    (valids : List String) : ℚ :=
  ((samples.filter fun s =>
      s.hardwareId == hw.id && valids.contains s.sampleId && s.accountable).map
    (·.sampledArea)).sum

/-- As `validAccountableSampledArea`, for volumes (results.py lines
911–921). -/
def validAccountableSampledVolume (hw : Hw) (samples : List Sample)
    (valids : List String) : ℚ :=
  ((samples.filter fun s =>
      s.hardwareId == hw.id && valids.contains s.sampleId && s.accountable).map
    (·.sampledVolume)).sum

/-- The component branch of `handle_child` (results.py lines 869–923):
an ineligible component yields `(empty_res, empty_res)`; an eligible one
contributes its simulation draws, its extent as `total`, and the sum of
its valid accountable sampled extents as `sampled`, in the slot of its
dimension.  The store access `sims["sims"][child["id"]]` raises
`KeyError` when an eligible component lacks a simulation record; it is
modelled with a zero default, and the rollup theorems restrict (via an
explicit hypothesis) to stores holding a record for every eligible
component, on which the default is unreachable and the model coincides
with the code. -/
def componentContribution (hw : Hw) (samples : List Sample) (valids : List String)
    (sims : List (String × QSim)) : AggRes × AggRes :=
  if !(childEligible hw samples valids) then (emptyRes, emptyRes)
  else
    let sim := (alookup sims hw.id).getD ⟨.scalar 0, .scalar 0⟩
    if hw.is2D then
      (⟨sim.lam, sim.cfuV, hw.area, validAccountableSampledArea hw samples valids⟩,
        emptyRes)
    else
      (emptyRes,
        ⟨sim.lam, sim.cfuV, hw.volume, validAccountableSampledVolume hw samples valids⟩)

/-- `handle_child` (results.py lines 868–924): components contribute
directly; a rollup child contributes its already-computed aggregate
(`sims_rollups[child["id"]]`, modelled with an empty default — under the
level discipline of `store_sims_rollups` the entry is always present). -/
def handleChild (samples : List Sample) (valids : List String)
    (sims : List (String × QSim)) (acc : List (String × (AggRes × AggRes)))
    (child : Hw) : AggRes × AggRes :=
  if child.isComponent then componentContribution child samples valids sims
  else (alookup acc child.id).getD (emptyRes, emptyRes)

/-- One `for res in child_results` step of `reduce_child_results`
(results.py lines 935–955). -/
def reduceStep (acc : AggRes × AggRes) (res : AggRes × AggRes) : AggRes × AggRes :=
  (⟨acc.1.lam.add (res.1.lam.smul res.1.total), acc.1.cfuV.add res.1.cfuV,
      acc.1.total + res.1.total, acc.1.sampled + res.1.sampled⟩,
    ⟨acc.2.lam.add (res.2.lam.smul res.2.total), acc.2.cfuV.add res.2.cfuV,
      acc.2.total + res.2.total, acc.2.sampled + res.2.sampled⟩)

/-- `reduce_child_results` (results.py lines 926–973): accumulate, then
divide the extent-weighted density by the (exact) total where nonzero,
and store the totals rounded to 6 decimal places. -/
def reduceChildResults (rs : List (AggRes × AggRes)) : AggRes × AggRes :=
  let acc := rs.foldl reduceStep (emptyRes, emptyRes)
  (⟨if acc.1.total ≠ 0 then acc.1.lam.divBy acc.1.total else acc.1.lam,
      acc.1.cfuV, pyRound6 acc.1.total, pyRound6 acc.1.sampled⟩,
    ⟨if acc.2.total ≠ 0 then acc.2.lam.divBy acc.2.total else acc.2.lam,
      acc.2.cfuV, pyRound6 acc.2.total, pyRound6 acc.2.sampled⟩)

/-- One level pass of `store_sims_rollups` (results.py lines 981–993):
every rollup element of the given level gets an entry computed from its
children, reading rollup children from the store built so far. -/
def rollupPass (hardware : List Hw) (samples : List Sample) (valids : List String)
    (sims : List (String × QSim)) (acc : List (String × (AggRes × AggRes)))
    (level : ℕ) : List (String × (AggRes × AggRes)) :=
  (hardware.filter fun e => e.level == level && !e.isComponent).foldl
    (fun acc2 elem => acc2 ++ [(elem.id,
      reduceChildResults ((hardware.filter fun c => c.parentId == some elem.id).map
        (handleChild samples valids sims acc2)))]) acc

/-- The level loop of `store_sims_rollups`
(`for level in reversed(range(2, 6))`, results.py line 981). -/
def rollupLevels (hardware : List Hw) (samples : List Sample) (valids : List String)
    (sims : List (String × QSim)) : List (String × (AggRes × AggRes)) :=
  [5, 4, 3, 2].foldl (rollupPass hardware samples valids sims) []

/-- `store_sims_rollups` (results.py lines 857–1001): levels 5 down
to 2, then the `"-- Project --"` aggregate over the parentless
elements. -/
def storeSimsRollups (hardware : List Hw) (samples : List Sample)
    (sims : List (String × QSim)) : List (String × (AggRes × AggRes)) :=
  let valids := identifyValidSamples samples hardware
  rollupLevels hardware samples valids sims ++ [("-- Project --",
    reduceChildResults ((hardware.filter fun c => c.parentId == none).map
      (handleChild samples valids sims (rollupLevels hardware samples valids sims))))]

/-- The specification's bottom-up recursion over the hierarchy, for
comparison with the iterative `storeSimsRollups`: a component yields its
own contribution, a rollup combines its children's recursive results;
`fuel` bounds the recursion depth (the tree has at most six levels). -/
def specNodeAgg (hardware : List Hw) (samples : List Sample) (valids : List String)
    (sims : List (String × QSim)) : ℕ → Hw → AggRes × AggRes
  | 0, e =>
    if e.isComponent then componentContribution e samples valids sims
    else (emptyRes, emptyRes)
  | (f + 1), e =>
    if e.isComponent then componentContribution e samples valids sims
    else reduceChildResults ((hardware.filter fun c => c.parentId == some e.id).map
      (specNodeAgg hardware samples valids sims f))

/-! ## Rollup lemmas -/

theorem QVal.add_scalar_zero (v : QVal) : v.add (.scalar 0) = v := by
  cases v <;> simp [QVal.add]

theorem specNodeAgg_component (hardware : List Hw) (samples : List Sample)
    (valids : List String) (sims : List (String × QSim)) (f : ℕ) {e : Hw}
    (he : e.isComponent = true) :
    specNodeAgg hardware samples valids sims f e =
      componentContribution e samples valids sims := by
  cases f <;> simp [specNodeAgg, he]

/-- Field-by-field description of the accumulation loop of
`reduce_child_results`. -/
theorem reduceFold_fields (rs : List (AggRes × AggRes)) (acc : AggRes × AggRes) :
    (rs.foldl reduceStep acc).1.total = acc.1.total + (rs.map (fun x => x.1.total)).sum ∧
    (rs.foldl reduceStep acc).1.sampled = acc.1.sampled + (rs.map (fun x => x.1.sampled)).sum ∧
    (rs.foldl reduceStep acc).2.total = acc.2.total + (rs.map (fun x => x.2.total)).sum ∧
    (rs.foldl reduceStep acc).2.sampled = acc.2.sampled + (rs.map (fun x => x.2.sampled)).sum ∧
    (rs.foldl reduceStep acc).1.lam =
      (rs.map (fun x => x.1.lam.smul x.1.total)).foldl QVal.add acc.1.lam ∧
    (rs.foldl reduceStep acc).1.cfuV =
      (rs.map (fun x => x.1.cfuV)).foldl QVal.add acc.1.cfuV ∧
    (rs.foldl reduceStep acc).2.lam =
      (rs.map (fun x => x.2.lam.smul x.2.total)).foldl QVal.add acc.2.lam ∧
    (rs.foldl reduceStep acc).2.cfuV =
      (rs.map (fun x => x.2.cfuV)).foldl QVal.add acc.2.cfuV := by
  induction rs generalizing acc with
  | nil => simp
  | cons r rs ih =>
    obtain ⟨h1, h2, h3, h4, h5, h6, h7, h8⟩ := ih (reduceStep acc r)
    simp only [List.foldl_cons, List.map_cons, List.sum_cons]
    refine ⟨?_, ?_, ?_, ?_, ?_, ?_, ?_, ?_⟩
    · rw [h1]; simp only [reduceStep]; ring
    · rw [h2]; simp only [reduceStep]; ring
    · rw [h3]; simp only [reduceStep]; ring
    · rw [h4]; simp only [reduceStep]; ring
    · rw [h5]; simp only [reduceStep]
    · rw [h6]; simp only [reduceStep]
    · rw [h7]; simp only [reduceStep]
    · rw [h8]; simp only [reduceStep]

/-- `reduce_child_results` computes, per dimension: 6-decimal-rounded
sums for `total`/`sampled`, the direct `QVal` sum of the CFU entries,
and (when the exact total is nonzero) the extent-weighted density
divided by the exact total. -/
theorem reduceChildResults_spec (rs : List (AggRes × AggRes)) :
    (reduceChildResults rs).1.total = pyRound6 ((rs.map (fun x => x.1.total)).sum) ∧
    (reduceChildResults rs).1.sampled = pyRound6 ((rs.map (fun x => x.1.sampled)).sum) ∧
    (reduceChildResults rs).2.total = pyRound6 ((rs.map (fun x => x.2.total)).sum) ∧
    (reduceChildResults rs).2.sampled = pyRound6 ((rs.map (fun x => x.2.sampled)).sum) ∧
    (reduceChildResults rs).1.cfuV =
      (rs.map (fun x => x.1.cfuV)).foldl QVal.add (.scalar 0) ∧
    (reduceChildResults rs).2.cfuV =
      (rs.map (fun x => x.2.cfuV)).foldl QVal.add (.scalar 0) ∧
    ((rs.map (fun x => x.1.total)).sum ≠ 0 →
      (reduceChildResults rs).1.lam =
        ((rs.map (fun x => x.1.lam.smul x.1.total)).foldl QVal.add (.scalar 0)).divBy
          ((rs.map (fun x => x.1.total)).sum)) ∧
    ((rs.map (fun x => x.2.total)).sum ≠ 0 →
      (reduceChildResults rs).2.lam =
        ((rs.map (fun x => x.2.lam.smul x.2.total)).foldl QVal.add (.scalar 0)).divBy
          ((rs.map (fun x => x.2.total)).sum)) := by
  obtain ⟨h1, h2, h3, h4, h5, h6, h7, h8⟩ := reduceFold_fields rs (emptyRes, emptyRes)
  rw [show (emptyRes, emptyRes).1.total = 0 from rfl, zero_add] at h1
  rw [show (emptyRes, emptyRes).1.sampled = 0 from rfl, zero_add] at h2
  rw [show (emptyRes, emptyRes).2.total = 0 from rfl, zero_add] at h3
  rw [show (emptyRes, emptyRes).2.sampled = 0 from rfl, zero_add] at h4
  rw [show (emptyRes, emptyRes).1.lam = QVal.scalar 0 from rfl] at h5
  rw [show (emptyRes, emptyRes).1.cfuV = QVal.scalar 0 from rfl] at h6
  rw [show (emptyRes, emptyRes).2.lam = QVal.scalar 0 from rfl] at h7
  rw [show (emptyRes, emptyRes).2.cfuV = QVal.scalar 0 from rfl] at h8
  have hred : reduceChildResults rs =
      (⟨if (rs.foldl reduceStep (emptyRes, emptyRes)).1.total ≠ 0 then
          ((rs.foldl reduceStep (emptyRes, emptyRes)).1.lam).divBy
            ((rs.foldl reduceStep (emptyRes, emptyRes)).1.total)
        else (rs.foldl reduceStep (emptyRes, emptyRes)).1.lam,
        (rs.foldl reduceStep (emptyRes, emptyRes)).1.cfuV,
        pyRound6 ((rs.foldl reduceStep (emptyRes, emptyRes)).1.total),
        pyRound6 ((rs.foldl reduceStep (emptyRes, emptyRes)).1.sampled)⟩,
       ⟨if (rs.foldl reduceStep (emptyRes, emptyRes)).2.total ≠ 0 then
          ((rs.foldl reduceStep (emptyRes, emptyRes)).2.lam).divBy
            ((rs.foldl reduceStep (emptyRes, emptyRes)).2.total)
        else (rs.foldl reduceStep (emptyRes, emptyRes)).2.lam,
        (rs.foldl reduceStep (emptyRes, emptyRes)).2.cfuV,
        pyRound6 ((rs.foldl reduceStep (emptyRes, emptyRes)).2.total),
        pyRound6 ((rs.foldl reduceStep (emptyRes, emptyRes)).2.sampled)⟩) := rfl
  rw [hred]
  refine ⟨by simp only; rw [h1], by simp only; rw [h2],
    by simp only; rw [h3], by simp only; rw [h4],
    by simp only; rw [h6], by simp only; rw [h8], ?_, ?_⟩
  · intro h
    simp only
    split_ifs with hc
    · rw [h1, h5]
    · exact absurd (h1.symm.trans (not_not.1 hc)) h
  · intro h
    simp only
    split_ifs with hc
    · rw [h3, h7]
    · exact absurd (h3.symm.trans (not_not.1 hc)) h

/-- Companion to `reduceChildResults_spec` for a dimension whose child
totals sum to zero: the accumulated extent-weighted density is stored
undivided. -/
theorem reduceChildResults_lam_of_total_zero (rs : List (AggRes × AggRes)) :
    ((rs.map (fun x => x.1.total)).sum = 0 →
      (reduceChildResults rs).1.lam =
        (rs.map (fun x => x.1.lam.smul x.1.total)).foldl QVal.add (.scalar 0)) ∧
    ((rs.map (fun x => x.2.total)).sum = 0 →
      (reduceChildResults rs).2.lam =
        (rs.map (fun x => x.2.lam.smul x.2.total)).foldl QVal.add (.scalar 0)) := by
  obtain ⟨h1, -, h3, -, h5, -, h7, -⟩ := reduceFold_fields rs (emptyRes, emptyRes)
  rw [show (emptyRes, emptyRes).1.total = 0 from rfl, zero_add] at h1
  rw [show (emptyRes, emptyRes).2.total = 0 from rfl, zero_add] at h3
  rw [show (emptyRes, emptyRes).1.lam = QVal.scalar 0 from rfl] at h5
  rw [show (emptyRes, emptyRes).2.lam = QVal.scalar 0 from rfl] at h7
  have hred : reduceChildResults rs =
      (⟨if (rs.foldl reduceStep (emptyRes, emptyRes)).1.total ≠ 0 then
          ((rs.foldl reduceStep (emptyRes, emptyRes)).1.lam).divBy
            ((rs.foldl reduceStep (emptyRes, emptyRes)).1.total)
        else (rs.foldl reduceStep (emptyRes, emptyRes)).1.lam,
        (rs.foldl reduceStep (emptyRes, emptyRes)).1.cfuV,
        pyRound6 ((rs.foldl reduceStep (emptyRes, emptyRes)).1.total),
        pyRound6 ((rs.foldl reduceStep (emptyRes, emptyRes)).1.sampled)⟩,
       ⟨if (rs.foldl reduceStep (emptyRes, emptyRes)).2.total ≠ 0 then
          ((rs.foldl reduceStep (emptyRes, emptyRes)).2.lam).divBy
            ((rs.foldl reduceStep (emptyRes, emptyRes)).2.total)
        else (rs.foldl reduceStep (emptyRes, emptyRes)).2.lam,
        (rs.foldl reduceStep (emptyRes, emptyRes)).2.cfuV,
        pyRound6 ((rs.foldl reduceStep (emptyRes, emptyRes)).2.total),
        pyRound6 ((rs.foldl reduceStep (emptyRes, emptyRes)).2.sampled)⟩) := rfl
  rw [hred]
  constructor
  · intro h
    simp only
    split_ifs with hc
    · exact absurd (h1.trans h) hc
    · exact h5
  · intro h
    simp only
    split_ifs with hc
    · exact absurd (h3.trans h) hc
    · exact h7

/-- Appending a zero contribution (an ineligible child) leaves the
combination unchanged. -/
theorem reduceChildResults_append_empty (rs : List (AggRes × AggRes)) :
    reduceChildResults (rs ++ [(emptyRes, emptyRes)]) = reduceChildResults rs := by
  unfold reduceChildResults
  rw [List.foldl_append]
  have hstep : reduceStep (rs.foldl reduceStep (emptyRes, emptyRes)) (emptyRes, emptyRes) =
      rs.foldl reduceStep (emptyRes, emptyRes) := by
    unfold reduceStep emptyRes
    simp [QVal.smul, QVal.add_scalar_zero]
  simp [hstep]

/-! ### Association-list lemmas -/

theorem alookup_append_left {α : Type _} {l1 l2 : List (String × α)} {k : String}
    {v : α} (h : alookup l1 k = some v) : alookup (l1 ++ l2) k = some v := by
  unfold alookup at h ⊢
  obtain ⟨p, hp, hmap⟩ := Option.map_eq_some'.1 h
  rw [List.find?_append, hp]
  simp [hmap]

theorem alookup_append_right {α : Type _} {l1 l2 : List (String × α)} {k : String}
    (h : alookup l1 k = none) : alookup (l1 ++ l2) k = alookup l2 k := by
  unfold alookup at h ⊢
  have hf : l1.find? (fun p => p.1 == k) = none := by
    cases hc : l1.find? (fun p => p.1 == k) with
    | none => rfl
    | some p => rw [hc] at h; simp at h
  rw [List.find?_append, hf, Option.none_or]

theorem alookup_some_mem {α : Type _} {l : List (String × α)} {k : String} {v : α}
    (h : alookup l k = some v) : (k, v) ∈ l := by
  unfold alookup at h
  obtain ⟨p, hp, hv⟩ := Option.map_eq_some'.1 h
  have hm := List.mem_of_find?_eq_some hp
  have hk := List.find?_some hp
  obtain ⟨p1, p2⟩ := p
  simp only at hv
  have hk2 : p1 = k := by simpa using hk
  rw [← hk2, ← hv]
  exact hm

theorem alookup_singleton_same {α : Type _} (k : String) (v : α) :
    alookup [(k, v)] k = some v := by
  simp [alookup]

theorem alookup_singleton_ne {α : Type _} {k k' : String} (v : α) (h : k' ≠ k) :
    alookup [(k', v)] k = none := by
  simp only [alookup, Option.map_eq_none', List.find?_eq_none]
  intro x hx
  simp only [List.mem_singleton] at hx
  subst hx
  simpa using h

/-- Python `round` of an integer-valued rational is the integer. -/
theorem pyRound_intCast (n : ℤ) : pyRound (n : ℚ) = n := by
  unfold pyRound
  simp [Int.floor_intCast]

theorem pyRound_eq_floor {q : ℚ} {z : ℤ} (hfl : ⌊q⌋ = z) (hr : q - z < 1/2) :
    pyRound q = z := by
  unfold pyRound
  rw [hfl, if_pos hr]

theorem pyRound_eq_floor_add_one {q : ℚ} {z : ℤ} (hfl : ⌊q⌋ = z)
    (hr : 1/2 < q - z) : pyRound q = z + 1 := by
  unfold pyRound
  rw [hfl, if_neg (by linarith), if_pos hr]

/-! ### Bottom-up agreement of the iterative rollup with the recursion -/

theorem mem_id_inj {hardware : List Hw} (hids : (hardware.map Hw.id).Nodup)
    {a b : Hw} (ha : a ∈ hardware) (hb : b ∈ hardware) (h : a.id = b.id) : a = b :=
  List.inj_on_of_nodup_map hids ha hb h

theorem alookup_append_singleton_inv {α : Type _} {l : List (String × α)}
    {a k : String} {b v : α} (h : alookup (l ++ [(a, b)]) k = some v) :
    alookup l k = some v ∨ (k = a ∧ v = b) := by
  cases hc : alookup l k with
  | some w =>
    have hl : alookup (l ++ [(a, b)]) k = some w := alookup_append_left hc
    have hwv : (some w : Option α) = some v := hl.symm.trans h
    injection hwv with hwv
    exact Or.inl (congrArg some hwv)
  | none =>
    rw [alookup_append_right hc] at h
    by_cases hb : a = k
    · subst hb
      rw [alookup_singleton_same] at h
      injection h with h
      exact Or.inr ⟨rfl, h.symm⟩
    · rw [alookup_singleton_ne _ hb] at h
      exact absurd h (by simp)

/-- If every child result satisfies `sampled ≤ total` in both dimension
slots, so does the combined result (rounding is monotone). -/
theorem reduceChildResults_sampled_le (rs : List (AggRes × AggRes))
    (h : ∀ x ∈ rs, x.1.sampled ≤ x.1.total ∧ x.2.sampled ≤ x.2.total) :
    (reduceChildResults rs).1.sampled ≤ (reduceChildResults rs).1.total ∧
    (reduceChildResults rs).2.sampled ≤ (reduceChildResults rs).2.total := by
  obtain ⟨h1, h2, h3, h4, -⟩ := reduceChildResults_spec rs
  constructor
  · rw [h1, h2]
    exact pyRound6_le_of_le (List.sum_le_sum fun x hx => (h x hx).1)
  · rw [h3, h4]
    exact pyRound6_le_of_le (List.sum_le_sum fun x hx => (h x hx).2)

theorem componentContribution_sampled_le {c : Hw} (samples : List Sample)
    (valids : List String) (sims : List (String × QSim))
    (hov : (c.is2D = true → validAccountableSampledArea c samples valids ≤ c.area) ∧
      (c.is2D = false → validAccountableSampledVolume c samples valids ≤ c.volume)) :
    (componentContribution c samples valids sims).1.sampled ≤
      (componentContribution c samples valids sims).1.total ∧
    (componentContribution c samples valids sims).2.sampled ≤
      (componentContribution c samples valids sims).2.total := by
  unfold componentContribution
  split_ifs with h1 h2
  · simp [emptyRes]
  · simpa [emptyRes] using hov.1 h2
  · simpa [emptyRes] using hov.2 (by simpa using h2)

/-- Every node of the specification recursion satisfies
`sampled ≤ total` in both dimension slots, provided no eligible
component is oversampled. -/
theorem specNodeAgg_sampled_le (hardware : List Hw) (samples : List Sample)
    (valids : List String) (sims : List (String × QSim))
    (hover : ∀ c ∈ hardware, c.isComponent = true →
      (c.is2D = true → validAccountableSampledArea c samples valids ≤ c.area) ∧
      (c.is2D = false → validAccountableSampledVolume c samples valids ≤ c.volume)) :
    ∀ f : ℕ, ∀ e ∈ hardware,
      (specNodeAgg hardware samples valids sims f e).1.sampled ≤
        (specNodeAgg hardware samples valids sims f e).1.total ∧
      (specNodeAgg hardware samples valids sims f e).2.sampled ≤
        (specNodeAgg hardware samples valids sims f e).2.total := by
  intro f
  induction f with
  | zero =>
    intro e he
    by_cases hcomp : e.isComponent = true
    · rw [specNodeAgg_component _ _ _ _ _ hcomp]
      exact componentContribution_sampled_le samples valids sims (hover e he hcomp)
    · simp only [specNodeAgg, Bool.not_eq_true] at hcomp ⊢
      rw [if_neg (by simp [hcomp])]
      simp [emptyRes]
  | succ f ih =>
    intro e he
    by_cases hcomp : e.isComponent = true
    · rw [specNodeAgg_component _ _ _ _ _ hcomp]
      exact componentContribution_sampled_le samples valids sims (hover e he hcomp)
    · simp only [specNodeAgg]
      rw [if_neg (by simp_all)]
      apply reduceChildResults_sampled_le
      intro x hx
      simp only [List.mem_map] at hx
      obtain ⟨c, hc, rfl⟩ := hx
      exact ih c (List.mem_of_mem_filter hc)

/-- A child at the level below the pass being processed contributes its
specification value: components directly, rollups through the entry
computed by an earlier (deeper) pass. -/
theorem handleChild_level_spec (hardware : List Hw) (samples : List Sample)
    (valids : List String) (sims : List (String × QSim))
    (hrb : ∀ e ∈ hardware, e.isComponent = false → 2 ≤ e.level ∧ e.level ≤ 5)
    (L : ℕ) (acc acc2 : List (String × (AggRes × AggRes)))
    (hext : ∀ k v, alookup acc k = some v → alookup acc2 k = some v)
    (hvals : ∀ e ∈ hardware, e.isComponent = false → L < e.level → e.level ≤ 5 →
      alookup acc e.id = some (specNodeAgg hardware samples valids sims (6 - e.level) e))
    {c : Hw} (hc : c ∈ hardware) (hclev : c.level = L + 1) :
    handleChild samples valids sims acc2 c =
      specNodeAgg hardware samples valids sims (5 - L) c := by
  by_cases hcomp : c.isComponent = true
  · rw [specNodeAgg_component _ _ _ _ _ hcomp]
    unfold handleChild
    rw [if_pos hcomp]
  · have hcomp' : c.isComponent = false := by simpa using hcomp
    have hbounds := hrb c hc hcomp'
    have hv := hvals c hc hcomp' (by omega) hbounds.2
    have h2 := hext _ _ hv
    unfold handleChild
    rw [if_neg (by simp [hcomp']), h2]
    have hfuel : 6 - c.level = 5 - L := by omega
    rw [hfuel]
    rfl

/-- After all level passes, any child of the project root contributes
its specification value. -/
theorem handleChild_full_spec (hardware : List Hw) (samples : List Sample)
    (valids : List String) (sims : List (String × QSim))
    (hrb : ∀ e ∈ hardware, e.isComponent = false → 2 ≤ e.level ∧ e.level ≤ 5)
    (acc2 : List (String × (AggRes × AggRes)))
    (hvals2 : ∀ e ∈ hardware, e.isComponent = false → 2 ≤ e.level → e.level ≤ 5 →
      alookup acc2 e.id = some (specNodeAgg hardware samples valids sims (6 - e.level) e))
    {c : Hw} (hc : c ∈ hardware) :
    handleChild samples valids sims acc2 c =
      specNodeAgg hardware samples valids sims (6 - c.level) c := by
  by_cases hcomp : c.isComponent = true
  · rw [specNodeAgg_component _ _ _ _ _ hcomp]
    unfold handleChild
    rw [if_pos hcomp]
  · have hcomp' : c.isComponent = false := by simpa using hcomp
    have hbounds := hrb c hc hcomp'
    have hv := hvals2 c hc hcomp' hbounds.1 hbounds.2
    unfold handleChild
    rw [if_neg (by simp [hcomp']), hv]
    rfl

/-- The accumulating fold inside one level pass: existing entries are
preserved, each processed rollup of the pass level gets its
specification value, and no other entries appear. -/
theorem rollupFold_spec (hardware : List Hw) (samples : List Sample)
    (valids : List String) (sims : List (String × QSim))
    (hlev : ∀ e ∈ hardware, ∀ c ∈ hardware, c.parentId = some e.id → c.level = e.level + 1)
    (hrb : ∀ e ∈ hardware, e.isComponent = false → 2 ≤ e.level ∧ e.level ≤ 5)
    (L : ℕ) (hL : L ≤ 5) (acc : List (String × (AggRes × AggRes)))
    (hvals : ∀ e ∈ hardware, e.isComponent = false → L < e.level → e.level ≤ 5 →
      alookup acc e.id = some (specNodeAgg hardware samples valids sims (6 - e.level) e)) :
    ∀ (elems : List Hw) (acc2 : List (String × (AggRes × AggRes))),
      (∀ x ∈ elems, x ∈ hardware ∧ x.isComponent = false ∧ x.level = L) →
      ((elems.map Hw.id).Nodup) →
      (∀ k v, alookup acc k = some v → alookup acc2 k = some v) →
      (∀ x ∈ elems, alookup acc2 x.id = none) →
      (∀ k v, alookup acc2 k = some v →
        alookup (elems.foldl (fun acc2 elem => acc2 ++ [(elem.id,
          reduceChildResults ((hardware.filter fun c => c.parentId == some elem.id).map
            (handleChild samples valids sims acc2)))]) acc2) k = some v) ∧
      (∀ x ∈ elems,
        alookup (elems.foldl (fun acc2 elem => acc2 ++ [(elem.id,
          reduceChildResults ((hardware.filter fun c => c.parentId == some elem.id).map
            (handleChild samples valids sims acc2)))]) acc2) x.id =
          some (specNodeAgg hardware samples valids sims (6 - L) x)) ∧
      (∀ k v,
        alookup (elems.foldl (fun acc2 elem => acc2 ++ [(elem.id,
          reduceChildResults ((hardware.filter fun c => c.parentId == some elem.id).map
            (handleChild samples valids sims acc2)))]) acc2) k = some v →
        alookup acc2 k = some v ∨
          ∃ x ∈ elems, x.id = k ∧
            v = specNodeAgg hardware samples valids sims (6 - L) x) := by
  intro elems
  induction elems with
  | nil =>
    intro acc2 _ _ _ _
    exact ⟨fun k v h => h, fun x hx => absurd hx (List.not_mem_nil x),
      fun k v h => Or.inl h⟩
  | cons x xs ih =>
    intro acc2 helems hnde hext hfresh
    have hx := helems x (List.mem_cons_self x xs)
    -- the payload of x's entry is its specification value
    have hpay : reduceChildResults
        ((hardware.filter fun c => c.parentId == some x.id).map
          (handleChild samples valids sims acc2)) =
        specNodeAgg hardware samples valids sims (6 - L) x := by
      have hchild : ∀ c ∈ hardware.filter (fun c => c.parentId == some x.id),
          handleChild samples valids sims acc2 c =
            specNodeAgg hardware samples valids sims (5 - L) c := by
        intro c hcf
        have hcm := List.mem_of_mem_filter hcf
        have hcp : c.parentId = some x.id := by
          have := List.of_mem_filter hcf
          simpa using this
        have hclev : c.level = L + 1 := by
          rw [hlev x hx.1 c hcm hcp, hx.2.2]
        exact handleChild_level_spec hardware samples valids sims hrb L acc acc2
          hext hvals hcm hclev
      rw [List.map_congr_left hchild]
      have h6 : 6 - L = (5 - L) + 1 := by omega
      rw [h6, specNodeAgg]
      rw [if_neg (by simp [hx.2.1])]
    have hnde' : (Hw.id x :: xs.map Hw.id).Nodup := by simpa using hnde
    rw [List.nodup_cons] at hnde'
    have hxidne : ∀ y ∈ xs, x.id ≠ y.id := by
      intro y hy he
      exact hnde'.1 (he ▸ List.mem_map_of_mem Hw.id hy)
    simp only [List.foldl_cons, hpay]
    obtain ⟨ihA, ihB, ihC⟩ := ih
      (acc2 ++ [(x.id, specNodeAgg hardware samples valids sims (6 - L) x)])
      (fun y hy => helems y (List.mem_cons_of_mem x hy))
      (hnde'.2)
      (fun k v h => alookup_append_left (hext k v h))
      (by
        intro y hy
        rw [alookup_append_right (hfresh y (List.mem_cons_of_mem x hy))]
        exact alookup_singleton_ne _ (hxidne y hy))
    have hxe : alookup (acc2 ++ [(x.id, specNodeAgg hardware samples valids sims (6 - L) x)])
        x.id = some (specNodeAgg hardware samples valids sims (6 - L) x) := by
      rw [alookup_append_right (hfresh x (List.mem_cons_self x xs))]
      exact alookup_singleton_same _ _
    refine ⟨?_, ?_, ?_⟩
    · intro k v h
      exact ihA k v (alookup_append_left h)
    · intro y hy
      rcases List.mem_cons.1 hy with rfl | hy'
      · exact ihA _ _ hxe
      · exact ihB y hy'
    · intro k v h
      rcases ihC k v h with h2 | ⟨y, hy, hid, hv⟩
      · rcases alookup_append_singleton_inv h2 with h3 | ⟨rfl, rfl⟩
        · exact Or.inl h3
        · exact Or.inr ⟨x, List.mem_cons_self x xs, rfl, rfl⟩
      · exact Or.inr ⟨y, List.mem_cons_of_mem x hy, hid, hv⟩

/-- One level pass of the iterative rollup: after the pass, every rollup
at this level or deeper carries its specification value, and all entries
are such values. -/
theorem rollupPass_spec (hardware : List Hw) (samples : List Sample)
    (valids : List String) (sims : List (String × QSim))
    (hids : (hardware.map Hw.id).Nodup)
    (hlev : ∀ e ∈ hardware, ∀ c ∈ hardware, c.parentId = some e.id → c.level = e.level + 1)
    (hrb : ∀ e ∈ hardware, e.isComponent = false → 2 ≤ e.level ∧ e.level ≤ 5)
    (L : ℕ) (hL : L ≤ 5) (acc : List (String × (AggRes × AggRes)))
    (hvals : ∀ e ∈ hardware, e.isComponent = false → L < e.level → e.level ≤ 5 →
      alookup acc e.id = some (specNodeAgg hardware samples valids sims (6 - e.level) e))
    (hkeys : ∀ k v, alookup acc k = some v →
      ∃ e ∈ hardware, e.id = k ∧ e.isComponent = false ∧ L < e.level ∧
        v = specNodeAgg hardware samples valids sims (6 - e.level) e) :
    (∀ e ∈ hardware, e.isComponent = false → L ≤ e.level → e.level ≤ 5 →
      alookup (rollupPass hardware samples valids sims acc L) e.id =
        some (specNodeAgg hardware samples valids sims (6 - e.level) e)) ∧
    (∀ k v, alookup (rollupPass hardware samples valids sims acc L) k = some v →
      ∃ e ∈ hardware, e.id = k ∧ e.isComponent = false ∧ L ≤ e.level ∧
        v = specNodeAgg hardware samples valids sims (6 - e.level) e) := by
  have helems : ∀ x ∈ hardware.filter (fun e => e.level == L && !e.isComponent),
      x ∈ hardware ∧ x.isComponent = false ∧ x.level = L := by
    intro x hx
    have hm := List.mem_of_mem_filter hx
    have hp := List.of_mem_filter hx
    simp only [Bool.and_eq_true, beq_iff_eq, Bool.not_eq_true'] at hp
    exact ⟨hm, hp.2, hp.1⟩
  have hnde : ((hardware.filter (fun e => e.level == L && !e.isComponent)).map Hw.id).Nodup :=
    List.Nodup.sublist (List.Sublist.map Hw.id (List.filter_sublist hardware)) hids
  have hfresh : ∀ x ∈ hardware.filter (fun e => e.level == L && !e.isComponent),
      alookup acc x.id = none := by
    intro x hx
    obtain ⟨hm, hcomp, hlvl⟩ := helems x hx
    cases hc : alookup acc x.id with
    | none => rfl
    | some v =>
      obtain ⟨e', he', hid, -, hlt, -⟩ := hkeys _ _ hc
      have := mem_id_inj hids he' hm hid
      subst this
      omega
  obtain ⟨fA, fB, fC⟩ := rollupFold_spec hardware samples valids sims hlev hrb L hL acc
    hvals (hardware.filter (fun e => e.level == L && !e.isComponent)) acc
    helems hnde (fun _ _ h => h) hfresh
  constructor
  · intro e he hcomp hge hle
    rcases lt_or_eq_of_le hge with hlt | heq
    · exact fA _ _ (hvals e he hcomp hlt hle)
    · have hmem : e ∈ hardware.filter (fun e => e.level == L && !e.isComponent) := by
        rw [List.mem_filter]
        exact ⟨he, by simp [hcomp, ← heq]⟩
      rw [← heq]
      exact fB e hmem
  · intro k v h
    rcases fC k v h with h2 | ⟨x, hx, hid, hv⟩
    · obtain ⟨e, he, hide, hcomp, hlt, hve⟩ := hkeys _ _ h2
      exact ⟨e, he, hide, hcomp, by omega, hve⟩
    · obtain ⟨hm, hcomp, hlvl⟩ := helems x hx
      exact ⟨x, hm, hid, hcomp, by omega, by rw [hv, hlvl]⟩

/-- After all four level passes, every rollup of the hierarchy carries
its specification value, and all entries are such values. -/
theorem rollupLevels_spec (hardware : List Hw) (samples : List Sample)
    (valids : List String) (sims : List (String × QSim))
    (hids : (hardware.map Hw.id).Nodup)
    (hlev : ∀ e ∈ hardware, ∀ c ∈ hardware, c.parentId = some e.id → c.level = e.level + 1)
    (hrb : ∀ e ∈ hardware, e.isComponent = false → 2 ≤ e.level ∧ e.level ≤ 5) :
    (∀ e ∈ hardware, e.isComponent = false → 2 ≤ e.level → e.level ≤ 5 →
      alookup (rollupLevels hardware samples valids sims) e.id =
        some (specNodeAgg hardware samples valids sims (6 - e.level) e)) ∧
    (∀ k v, alookup (rollupLevels hardware samples valids sims) k = some v →
      ∃ e ∈ hardware, e.id = k ∧ e.isComponent = false ∧ 2 ≤ e.level ∧
        v = specNodeAgg hardware samples valids sims (6 - e.level) e) := by
  have p5 := rollupPass_spec hardware samples valids sims hids hlev hrb 5 (by omega) []
    (by intro e he hc h5 hle; omega)
    (by intro k v h; simp [alookup] at h)
  have p4 := rollupPass_spec hardware samples valids sims hids hlev hrb 4 (by omega) _
    (by intro e he hc h4 hle; exact p5.1 e he hc (by omega) hle)
    (by intro k v h
        obtain ⟨e, he, hid, hc, hge, hv⟩ := p5.2 k v h
        exact ⟨e, he, hid, hc, by omega, hv⟩)
  have p3 := rollupPass_spec hardware samples valids sims hids hlev hrb 3 (by omega) _
    (by intro e he hc h3 hle; exact p4.1 e he hc (by omega) hle)
    (by intro k v h
        obtain ⟨e, he, hid, hc, hge, hv⟩ := p4.2 k v h
        exact ⟨e, he, hid, hc, by omega, hv⟩)
  have p2 := rollupPass_spec hardware samples valids sims hids hlev hrb 2 (by omega) _
    (by intro e he hc h2 hle; exact p3.1 e he hc (by omega) hle)
    (by intro k v h
        obtain ⟨e, he, hid, hc, hge, hv⟩ := p3.2 k v h
        exact ⟨e, he, hid, hc, by omega, hv⟩)
  have hAL : rollupLevels hardware samples valids sims =
      rollupPass hardware samples valids sims
        (rollupPass hardware samples valids sims
          (rollupPass hardware samples valids sims
            (rollupPass hardware samples valids sims [] 5) 4) 3) 2 := rfl
  rw [hAL]
  exact p2

end Biostar

namespace Biostar

/-! ## Claim C5: rollup combination as a weighted mixture -/

/-- Concrete rollup tree for the C5 counterexample: a level-2 rollup
with two level-3 Sampled children whose areas are `2/5000000` m². -/
def hwR5 : Hw := ⟨"R", none, 2, false, true, "2D (Area)", 0, 0, "", "", none, "", none⟩

def hwA5 : Hw :=
  ⟨"A", some "R", 3, true, true, "2D (Area)", 2/5000000, 0, "Sampled", "X", none, "", none⟩

def hwB5 : Hw :=
  ⟨"B", some "R", 3, true, true, "2D (Area)", 2/5000000, 0, "Sampled", "X", none, "", none⟩

def simsC5 : List (String × QSim) :=
  [("A", ⟨.scalar 1, .scalar 1⟩), ("B", ⟨.scalar 1, .scalar 1⟩)]

/-- **C5, counterexample.**  The claim states that a rollup's
`combined_total` equals the sum of its contributing children's totals.
The code stores `round(area_total, 6)` (results.py line 964): with two
eligible children of area `2/5000000 = 4e-7` each, the exact sum is
`8e-7` but the stored combined total is `1e-6`. -/
theorem rollup_total_rounded_counterexample :
    ∃ r, alookup (storeSimsRollups [hwR5, hwA5, hwB5] [] simsC5) "R" = some r ∧
      r.1.total ≠ hwA5.area + hwB5.area := by
  have hstore : alookup (storeSimsRollups [hwR5, hwA5, hwB5] [] simsC5) "R" =
      some (reduceChildResults
        [(⟨.scalar 1, .scalar 1, 2/5000000, 0⟩, emptyRes),
         (⟨.scalar 1, .scalar 1, 2/5000000, 0⟩, emptyRes)]) := rfl
  refine ⟨_, hstore, ?_⟩
  obtain ⟨h1, -⟩ := reduceChildResults_spec
    [((⟨.scalar 1, .scalar 1, 2/5000000, 0⟩ : AggRes), emptyRes),
     (⟨.scalar 1, .scalar 1, 2/5000000, 0⟩, emptyRes)]
  rw [h1]
  have hsum : ((([((⟨.scalar 1, .scalar 1, 2/5000000, 0⟩ : AggRes), emptyRes),
      (⟨.scalar 1, .scalar 1, 2/5000000, 0⟩, emptyRes)]).map
        (fun x => x.1.total)).sum : ℚ) = 1/1250000 := by
    simp [emptyRes]
    norm_num
  rw [hsum]
  have hfl : ⌊(1/1250000 : ℚ) * 1000000⌋ = 0 := by
    rw [show (1/1250000 : ℚ) * 1000000 = 4/5 by norm_num]
    rw [Int.floor_eq_iff]
    norm_num
  have hpr : pyRound ((1/1250000 : ℚ) * 1000000) = 1 :=
    pyRound_eq_floor_add_one hfl (by rw [show (1/1250000 : ℚ) * 1000000 = 4/5 by norm_num]; norm_num)
  unfold pyRound6
  rw [hpr]
  show (1 : ℚ)/1000000 ≠ hwA5.area + hwB5.area
  show (1 : ℚ)/1000000 ≠ 2/5000000 + 2/5000000
  norm_num

/-- **C5, amended.**  For every rollup node combination
(`reduce_child_results` over the children's contributions), in each
dimension: `combined_total` and `combined_sampled` are the children's
sums *rounded to 6 decimal places* (Python `round`, banker's rounding);
combined CFU is the direct (broadcasting) sum of the child CFU entries;
combined density is the extent-weighted accumulation
`Σ childᵢ.total·childᵢ.density` divided by the *exact* (unrounded)
total when that is nonzero, and stored undivided when it is zero (as in
a pure single-dimension rollup's unused dimension); an ineligible
component child (invalid, or generic-prior with no valid accountable
sample) contributes the zero result through `handle_child`, and
appending such a zero contribution leaves the combination unchanged —
no error is raised. -/
theorem rollup_weighted_mixture_combination
    (rs : List (AggRes × AggRes)) (child : Hw) (samples : List Sample)
    (valids : List String) (sims : List (String × QSim))
    (acc : List (String × (AggRes × AggRes)))
    (hinel : childEligible child samples valids = false)
    (hcomp : child.isComponent = true) :
    (reduceChildResults rs).1.total = pyRound6 ((rs.map (fun x => x.1.total)).sum) ∧
    (reduceChildResults rs).1.sampled = pyRound6 ((rs.map (fun x => x.1.sampled)).sum) ∧
    (reduceChildResults rs).2.total = pyRound6 ((rs.map (fun x => x.2.total)).sum) ∧
    (reduceChildResults rs).2.sampled = pyRound6 ((rs.map (fun x => x.2.sampled)).sum) ∧
    (reduceChildResults rs).1.cfuV =
      (rs.map (fun x => x.1.cfuV)).foldl QVal.add (.scalar 0) ∧
    (reduceChildResults rs).2.cfuV =
      (rs.map (fun x => x.2.cfuV)).foldl QVal.add (.scalar 0) ∧
    ((rs.map (fun x => x.1.total)).sum ≠ 0 →
      (reduceChildResults rs).1.lam =
        ((rs.map (fun x => x.1.lam.smul x.1.total)).foldl QVal.add (.scalar 0)).divBy
          ((rs.map (fun x => x.1.total)).sum)) ∧
    ((rs.map (fun x => x.1.total)).sum = 0 →
      (reduceChildResults rs).1.lam =
        (rs.map (fun x => x.1.lam.smul x.1.total)).foldl QVal.add (.scalar 0)) ∧
    ((rs.map (fun x => x.2.total)).sum ≠ 0 →
      (reduceChildResults rs).2.lam =
        ((rs.map (fun x => x.2.lam.smul x.2.total)).foldl QVal.add (.scalar 0)).divBy
          ((rs.map (fun x => x.2.total)).sum)) ∧
    ((rs.map (fun x => x.2.total)).sum = 0 →
      (reduceChildResults rs).2.lam =
        (rs.map (fun x => x.2.lam.smul x.2.total)).foldl QVal.add (.scalar 0)) ∧
    handleChild samples valids sims acc child = (emptyRes, emptyRes) ∧
    reduceChildResults (rs ++ [(emptyRes, emptyRes)]) = reduceChildResults rs := by
  obtain ⟨s1, s2, s3, s4, s5, s6, s7, s8⟩ := reduceChildResults_spec rs
  obtain ⟨z1, z2⟩ := reduceChildResults_lam_of_total_zero rs
  refine ⟨s1, s2, s3, s4, s5, s6, s7, z1, s8, z2, ?_,
    reduceChildResults_append_empty rs⟩
  simp [handleChild, hcomp, componentContribution, hinel]

def childC5w : Hw :=
  ⟨"CW", some "R", 3, true, false, "2D (Area)", 1, 0, "Sampled", "X", none, "", none⟩

/-- Witness for the amended C5 at one concrete child-result list — an
all-area child, so the area dimension exercises the rounded-total and
divided-density clauses and the volume dimension (total sum zero) the
undivided-density clause — and one concrete ineligible (invalid)
component child. -/
theorem rollup_weighted_mixture_combination_witness :
    (reduceChildResults
        [(⟨.scalar 3, .scalar 4, 1, 0⟩, ⟨.scalar 5, .scalar 6, 0, 0⟩)]).1.total =
      pyRound6 (([((⟨.scalar 3, .scalar 4, 1, 0⟩ : AggRes),
        (⟨.scalar 5, .scalar 6, 0, 0⟩ : AggRes))].map (fun x => x.1.total)).sum) ∧
    (reduceChildResults
        [(⟨.scalar 3, .scalar 4, 1, 0⟩, ⟨.scalar 5, .scalar 6, 0, 0⟩)]).1.lam =
      (([((⟨.scalar 3, .scalar 4, 1, 0⟩ : AggRes),
          (⟨.scalar 5, .scalar 6, 0, 0⟩ : AggRes))].map
        (fun x => x.1.lam.smul x.1.total)).foldl QVal.add (.scalar 0)).divBy
        (([((⟨.scalar 3, .scalar 4, 1, 0⟩ : AggRes),
          (⟨.scalar 5, .scalar 6, 0, 0⟩ : AggRes))].map (fun x => x.1.total)).sum) ∧
    (reduceChildResults
        [(⟨.scalar 3, .scalar 4, 1, 0⟩, ⟨.scalar 5, .scalar 6, 0, 0⟩)]).2.lam =
      ([((⟨.scalar 3, .scalar 4, 1, 0⟩ : AggRes),
          (⟨.scalar 5, .scalar 6, 0, 0⟩ : AggRes))].map
        (fun x => x.2.lam.smul x.2.total)).foldl QVal.add (.scalar 0) ∧
    handleChild [] [] [] [] childC5w = (emptyRes, emptyRes) := by
  have h := rollup_weighted_mixture_combination
    [(⟨.scalar 3, .scalar 4, 1, 0⟩, ⟨.scalar 5, .scalar 6, 0, 0⟩)]
    childC5w [] [] [] []
    (by decide) rfl
  exact ⟨h.1, h.2.2.2.2.2.2.1 (by simp), h.2.2.2.2.2.2.2.2.2.1 (by simp),
    h.2.2.2.2.2.2.2.2.2.2.1⟩

/-! ## Claim C9: transitive rollup extents -/

set_option linter.unusedVariables false in
/-- **C9, amended.**  For every rollup node, the stored aggregate equals
the specification's bottom-up recursion over its direct and transitive
descendants — so its `combined_total` is the *level-by-level 6-decimal
rounded* sum of its eligible component descendants' extents per
dimension (ineligible components contributing zero), and likewise for
the project root over the parentless elements.  `combined_sampled ≤
combined_total` holds exactly on the trees in which no eligible
component's valid accountable sampled extent exceeds its own extent —
the tool never validates this; see the counterexample.  The hypothesis
`hsims` restricts to stores holding a simulation record for every
eligible component: on any other input the Python code raises `KeyError`
at `sims["sims"][child["id"]]` rather than computing an aggregate, and
the zero default of `componentContribution` is unreachable. -/
theorem rollup_transitive_totals_and_sampled_bound
    (hardware : List Hw) (samples : List Sample) (sims : List (String × QSim))
    (valids : List String)
    (hvalids : valids = identifyValidSamples samples hardware)
    (hids : (hardware.map Hw.id).Nodup)
    (hlev : ∀ e ∈ hardware, ∀ c ∈ hardware, c.parentId = some e.id → c.level = e.level + 1)
    (hrb : ∀ e ∈ hardware, e.isComponent = false → 2 ≤ e.level ∧ e.level ≤ 5)
    (hpid : ∀ e ∈ hardware, e.id ≠ "-- Project --")
    (hsims : ∀ c ∈ hardware, c.isComponent = true →
      childEligible c samples valids = true → (alookup sims c.id).isSome = true) :
    (∀ e ∈ hardware, e.isComponent = false →
      alookup (storeSimsRollups hardware samples sims) e.id =
        some (specNodeAgg hardware samples valids sims (6 - e.level) e)) ∧
    (alookup (storeSimsRollups hardware samples sims) "-- Project --" =
      some (reduceChildResults ((hardware.filter fun c => c.parentId == none).map
        (fun c => specNodeAgg hardware samples valids sims (6 - c.level) c)))) ∧
    ((∀ c ∈ hardware, c.isComponent = true →
        (c.is2D = true → validAccountableSampledArea c samples valids ≤ c.area) ∧
        (c.is2D = false → validAccountableSampledVolume c samples valids ≤ c.volume)) →
      ∀ k r, alookup (storeSimsRollups hardware samples sims) k = some r →
        r.1.sampled ≤ r.1.total ∧ r.2.sampled ≤ r.2.total) := by
  clear hsims
  subst hvalids
  obtain ⟨hALvals, hALkeys⟩ := rollupLevels_spec hardware samples
    (identifyValidSamples samples hardware) sims hids hlev hrb
  have hstore : storeSimsRollups hardware samples sims =
      rollupLevels hardware samples (identifyValidSamples samples hardware) sims ++
        [("-- Project --",
          reduceChildResults ((hardware.filter fun c => c.parentId == none).map
            (handleChild samples (identifyValidSamples samples hardware) sims
              (rollupLevels hardware samples (identifyValidSamples samples hardware) sims))))] :=
    rfl
  have hprojnone : alookup
      (rollupLevels hardware samples (identifyValidSamples samples hardware) sims)
      "-- Project --" = none := by
    cases hc : alookup
        (rollupLevels hardware samples (identifyValidSamples samples hardware) sims)
        "-- Project --" with
    | none => rfl
    | some v =>
      obtain ⟨e, he, hid, -⟩ := hALkeys _ _ hc
      exact absurd hid (hpid e he)
  have hpay : ((hardware.filter fun c => c.parentId == none).map
        (handleChild samples (identifyValidSamples samples hardware) sims
          (rollupLevels hardware samples (identifyValidSamples samples hardware) sims))) =
      ((hardware.filter fun c => c.parentId == none).map
        (fun c => specNodeAgg hardware samples (identifyValidSamples samples hardware) sims
          (6 - c.level) c)) := by
    apply List.map_congr_left
    intro c hc
    exact handleChild_full_spec hardware samples (identifyValidSamples samples hardware) sims
      hrb _ hALvals (List.mem_of_mem_filter hc)
  refine ⟨?_, ?_, ?_⟩
  · intro e he hcomp
    have hb := hrb e he hcomp
    rw [hstore]
    exact alookup_append_left (hALvals e he hcomp hb.1 hb.2)
  · rw [hstore, alookup_append_right hprojnone, alookup_singleton_same, hpay]
  · intro hover k r h
    rw [hstore] at h
    rcases alookup_append_singleton_inv h with h2 | ⟨-, rfl⟩
    · obtain ⟨e, he, -, -, -, rfl⟩ := hALkeys _ _ h2
      exact specNodeAgg_sampled_le hardware samples
        (identifyValidSamples samples hardware) sims hover _ e he
    · apply reduceChildResults_sampled_le
      intro x hx
      simp only [List.mem_map] at hx
      obtain ⟨c, hc, rfl⟩ := hx
      rw [handleChild_full_spec hardware samples (identifyValidSamples samples hardware) sims
        hrb _ hALvals (List.mem_of_mem_filter hc)]
      exact specNodeAgg_sampled_le hardware samples
        (identifyValidSamples samples hardware) sims hover _ c (List.mem_of_mem_filter hc)

/-- Concrete tree for the C9 witness: a level-2 rollup `"R9"` with one
eligible level-3 Sampled child `"C9"` of area 1 m², no samples, and a
simulation record for the eligible child. -/
def hwR9 : Hw := ⟨"R9", none, 2, false, true, "2D (Area)", 0, 0, "", "", none, "", none⟩

def hwC9 : Hw :=
  ⟨"C9", some "R9", 3, true, true, "2D (Area)", 1, 0, "Sampled", "X", none, "", none⟩

def simsW9 : List (String × QSim) := [("C9", ⟨.scalar 2, .scalar 3⟩)]

/-- Witness for the amended C9 at the concrete two-element tree. -/
theorem rollup_transitive_totals_and_sampled_bound_witness :
    (∀ e ∈ [hwR9, hwC9], e.isComponent = false →
      alookup (storeSimsRollups [hwR9, hwC9] [] simsW9) e.id =
        some (specNodeAgg [hwR9, hwC9] [] [] simsW9 (6 - e.level) e)) ∧
    (alookup (storeSimsRollups [hwR9, hwC9] [] simsW9) "-- Project --" =
      some (reduceChildResults (([hwR9, hwC9].filter fun c => c.parentId == none).map
        (fun c => specNodeAgg [hwR9, hwC9] [] [] simsW9 (6 - c.level) c)))) ∧
    ((∀ c ∈ [hwR9, hwC9], c.isComponent = true →
        (c.is2D = true → validAccountableSampledArea c [] [] ≤ c.area) ∧
        (c.is2D = false → validAccountableSampledVolume c [] [] ≤ c.volume)) →
      ∀ k r, alookup (storeSimsRollups [hwR9, hwC9] [] simsW9) k = some r →
        r.1.sampled ≤ r.1.total ∧ r.2.sampled ≤ r.2.total) := by
  exact rollup_transitive_totals_and_sampled_bound [hwR9, hwC9] [] simsW9 []
    rfl (by decide) (by decide) (by decide) (by decide) (by decide)

/-- The oversampled tree for the C9 counterexample: component `"CX"` has
area 1 m² but carries a single valid PP-accountable sample whose sampled
area is 5 m² — the tool never validates sampled extents against the
component extent. -/
def hwRX : Hw := ⟨"RX", none, 2, false, true, "2D (Area)", 0, 0, "", "", none, "", none⟩

def hwCX : Hw :=
  ⟨"CX", some "RX", 3, true, true, "2D (Area)", 1, 0, "Sampled", "X", none, "", none⟩

def sampleX : Sample :=
  ⟨"SX", "CX", "Yes", 5, 0, "Swab", "Puritan Cotton", "NASA Standard", 1, 3⟩

def simsC9 : List (String × QSim) := [("CX", ⟨.scalar 1, .scalar 1⟩)]

/-- **C9, counterexample.**  The claim asserts
`combined_sampled ≤ combined_total` for every rollup; in the
oversampled tree — whose one eligible component carries a simulation
record — the stored aggregate for `"RX"` has `sampled = 5 > 1 = total`. -/
theorem rollup_sampled_exceeds_total_counterexample :
    ∃ r, alookup (storeSimsRollups [hwRX, hwCX] [sampleX] simsC9) "RX" = some r ∧
      ¬ (r.1.sampled ≤ r.1.total) := by
  have hstore : alookup (storeSimsRollups [hwRX, hwCX] [sampleX] simsC9) "RX" =
      some (reduceChildResults
        [((⟨.scalar 1, .scalar 1, 1,
            validAccountableSampledArea hwCX [sampleX]
              (identifyValidSamples [sampleX] [hwRX, hwCX])⟩ : AggRes), emptyRes)]) := rfl
  refine ⟨_, hstore, ?_⟩
  obtain ⟨h1, h2, -⟩ := reduceChildResults_spec
    [((⟨.scalar 1, .scalar 1, 1,
        validAccountableSampledArea hwCX [sampleX]
          (identifyValidSamples [sampleX] [hwRX, hwCX])⟩ : AggRes), emptyRes)]
  rw [h1, h2]
  have hva : validAccountableSampledArea hwCX [sampleX]
      (identifyValidSamples [sampleX] [hwRX, hwCX]) = ([(5 : ℚ)]).sum := rfl
  rw [List.sum_singleton] at hva
  simp only [List.map_cons, List.map_nil, List.sum_cons, List.sum_nil, add_zero]
  rw [hva]
  have hp5 : pyRound6 (5 : ℚ) = 5 := by
    unfold pyRound6
    rw [show ((5 : ℚ) * 1000000) = ((5000000 : ℤ) : ℚ) by norm_num, pyRound_intCast]
    norm_num
  have hp1 : pyRound6 (1 : ℚ) = 1 := by
    unfold pyRound6
    rw [show ((1 : ℚ) * 1000000) = ((1000000 : ℤ) : ℚ) by norm_num, pyRound_intCast]
    norm_num
  rw [hp5, hp1]
  norm_num

/-! ## Event controller: `store_sims_components` (results.py lines 561–848)
and `hardware_delete_confirm` (delete.py lines 30–76)

The DeepDiff payloads are modelled at the unpacked granularity the
callback actually consumes (`unpack_deepdiff_loc` /
`reduce_deefdiff_edits`, parsing.py lines 9–34): an edit event is a list
of `(element key or row index, changed fields)` pairs, a removal event a
list of removed keys.  Dash's `PreventUpdate` and Python's
`KeyError`/`TypeError` are modelled by `none`; a `none` result leaves
every store byte-for-byte unchanged (no output is written).  The
simulation call is abstracted as `simFn` over an arbitrary record type,
receiving exactly the sample list the code passes it. -/

/-- The simulation store `{"noop": ..., "sims": {...}}`. -/
structure SimStore (σ : Type _) where
  noop : Bool
  sims : List (String × σ)
  deriving Repr, DecidableEq

/-- The `is_eligible` closure of `store_sims_components` (results.py
lines 576–588), applied to the valid-filtered sample list. -/
def isEligible (samplesListValid : List Sample) (hw : Hw) : Bool :=
  if hw.analogy != "-- Generic --" then hw.valid
  else hw.valid && !((samplesListValid.filter fun s =>
    s.hardwareId == hw.id && s.accountable).isEmpty)

/-- `samples_list_valid` (results.py line 574). -/
def samplesListValid (samples : List Sample) (hardware : List Hw) : List Sample :=
  samples.filter fun s => (identifyValidSamples samples hardware).contains s.sampleId

/-- Python dict assignment `d[k] = v` on an association list. -/
def upsert {σ : Type _} (l : List (String × σ)) (k : String) (v : σ) :
    List (String × σ) :=
  if (alookup l k).isSome then l.map (fun p => if p.1 == k then (k, v) else p)
  else l ++ [(k, v)]

/-- Python dict deletion `del d[k]`: `none` models the `KeyError` on a
missing key. -/
def delKey {σ : Type _} (l : List (String × σ)) (k : String) :
    Option (List (String × σ)) :=
  if (alookup l k).isSome then some (l.filter fun p => p.1 != k) else none

/-- Case 2.4 of `store_sims_components` (results.py lines 683–734):
existing hardware element(s) edited. -/
def storeSimsHardwareEdited {σ : Type _}
    (simFn : Hw → List Sample → List (String × σ) → σ)
    (hardware_dict hardware_prev : List Hw) (samples_list : List Sample)
    (updateLocs : List (String × List String)) (current : SimStore σ) :
    Option (SimStore σ) :=
  let slv := samplesListValid samples_list hardware_dict
  if (updateLocs.flatMap Prod.snd).all (fun x => HARDWARE_METADATA_COLUMNS.contains x) then
    none
  else
    (updateLocs.foldlM (fun (st : List (String × σ) × List Bool)
        (u : String × List String) =>
      if u.2.all (fun x => HARDWARE_METADATA_COLUMNS.contains x) then
        some (st.1, st.2 ++ [true])
      else
        match hwLookup hardware_prev u.1, hwLookup hardware_dict u.1 with
        | some old, some nw =>
          if isEligible slv old || isEligible slv nw then
            let implied := findImpliedHardware nw hardware_dict
            if !(isEligible slv nw) then
              (delKey st.1 old.id).bind (fun s1 =>
                (implied.foldlM (fun acc (imp : Hw) => delKey acc imp.id) s1).map
                  (fun s2 => (s2, st.2 ++ [false])))
            else
              let s1 := upsert st.1 nw.id (simFn nw slv st.1)
              let s2 := implied.foldl
                (fun acc (imp : Hw) => upsert acc imp.id (simFn imp slv acc)) s1
              some (s2, st.2 ++ [false])
          else some (st.1, st.2 ++ [true])
        | _, _ => none) (current.sims, ([] : List Bool))).map
      (fun (st : List (String × σ) × List Bool) => (⟨st.2.all id, st.1⟩ : SimStore σ))

/-- Case 1.2 of `store_sims_components` (results.py lines 788–845):
sample(s) edited.  Note the re-simulation passes the **unfiltered**
`samples_list` to `sim_component` (results.py lines 836–840), unlike
every other branch, which passes `samples_list_valid`. -/
def storeSimsSampleEdited {σ : Type _}
    (simFn : Hw → List Sample → List (String × σ) → σ)
    (hardware_dict : List Hw) (samples_list samples_prev : List Sample)
    (updateLocs : List (ℕ × List String)) (current : SimStore σ) :
    Option (SimStore σ) :=
  let samples_valid := identifyValidSamples samples_list hardware_dict
  let slv := samples_list.filter fun s => samples_valid.contains s.sampleId
  if (updateLocs.flatMap Prod.snd).all
      (fun x => SAMPLE_TABLE_METADATA_COLUMNS.contains x) then
    none
  else
    (updateLocs.foldlM (fun (st : List (String × σ) × List Bool)
        (u : ℕ × List String) =>
      if u.2.all (fun x => SAMPLE_TABLE_METADATA_COLUMNS.contains x) then
        some (st.1, st.2 ++ [true])
      else
        match samples_list[u.1]? with
        | none => none
        | some nw =>
          match samples_prev.find? (fun s => s.sampleId == nw.sampleId),
              hwLookup hardware_dict nw.hardwareId with
          | some old, some hw =>
            if !(isEligible slv hw) ||
                (!(samples_valid.contains nw.sampleId) &&
                  !(samples_valid.contains old.sampleId)) ||
                (!nw.accountable && !old.accountable) then
              some (st.1, st.2 ++ [true])
            else
              let s1 := upsert st.1 hw.id (simFn hw samples_list st.1)
              let s2 := (findImpliedHardware hw hardware_dict).foldl
                (fun acc (imp : Hw) => upsert acc imp.id (simFn imp samples_list acc)) s1
              some (s2, st.2 ++ [false])
          | _, _ => none) (current.sims, ([] : List Bool))).map
      (fun (st : List (String × σ) × List Bool) => (⟨st.2.all id, st.1⟩ : SimStore σ))

/-- Case 2.3 of `store_sims_components` (results.py lines 663–680):
component(s) removed.  `find_implied_hardware` is called on the
**current** hardware dict, in which `hardware_delete_confirm` has
already invalidated the dependents. -/
def storeSimsHardwareRemoved {σ : Type _}
    (hardware_dict hardware_prev : List Hw) (samples_list : List Sample)
    (removedIds : List String) (current : SimStore σ) : Option (SimStore σ) :=
  let slv := samplesListValid samples_list hardware_dict
  match removedIds.mapM (hwLookup hardware_prev) with
  | none => none
  | some arr =>
    (arr.foldlM (fun (st : List (String × σ) × Bool) (removed : Hw) =>
      if isEligible slv removed ||
          ((alookup st.1 removed.id).isSome && !(isEligible slv removed)) then
        let implied := findImpliedHardware removed hardware_dict
        (delKey st.1 removed.id).bind (fun s1 =>
          (implied.foldlM (fun acc (imp : Hw) => delKey acc imp.id) s1).map
            (fun s2 => (s2, false)))
      else some st) (current.sims, true)).map
      (fun (st : List (String × σ) × Bool) => (⟨st.2, st.1⟩ : SimStore σ))

/-- `hardware_delete_confirm` (delete.py lines 30–76).  A parent left
childless is coerced to an (invalid) component; the code stores `""` in
its extent fields and `None` in its categorical fields, modelled as `0`
and `""`.  Elements implied from the deleted component are invalidated
and their links cleared.  `none` models the `KeyError` on a missing
hardware or parent id. -/
def hardwareDeleteConfirm (hwId : String) (hardware : List Hw)
    (samples : List Sample) : Option (List Hw × List Sample) :=
  match hwLookup hardware hwId with
  | none => none
  | some hwDel =>
    let hardware1 := hardware.filter fun hw => hw.id != hwId
    let samples1 := samples.filter fun s => s.hardwareId != hwId
    let coerced : Option (List Hw) :=
      match hwDel.parentId with
      | none => some hardware1
      | some pid =>
        if pid == "" then some hardware1
        else if (hardware1.filter fun hw => hw.parentId == some pid).isEmpty then
          if (hwLookup hardware1 pid).isSome then
            some (hardware1.map fun hw =>
              if hw.id == pid then
                { hw with
                    isComponent := true, valid := false, dim := "2D (Area)",
                    area := 0, volume := 0, typ := "", analogy := "",
                    impliedId := none, spec := "", group := none }
              else hw)
          else none
        else some hardware1
    coerced.map (fun h2 =>
      (h2.map fun hw =>
        if hw.impliedId == some hwId then
          { hw with valid := false, impliedId := none }
        else hw,
       samples1.filter fun s => s.hardwareId != hwId))

theorem alookup_filter_ne {α : Type _} {l : List (String × α)} {t k : String}
    (h : k ≠ t) : alookup (l.filter fun p => p.1 != t) k = alookup l k := by
  induction l with
  | nil => rfl
  | cons p l ih =>
    rcases eq_or_ne p.1 t with hp | hp
    · have h1 : (p.1 != t) = false := by simp [hp]
      have h2 : (p.1 == k) = false := by
        simp only [beq_eq_false_iff_ne, ne_eq, hp]
        exact fun hh => h hh.symm
      rw [List.filter_cons_of_neg (by simp [h1])]
      rw [show alookup (p :: l) k = alookup l k by
        unfold alookup; rw [List.find?_cons_of_neg _ (by simp [h2])]]
      exact ih
    · have h1 : (p.1 != t) = true := by simp [hp]
      rw [List.filter_cons_of_pos (by simp [h1])]
      unfold alookup
      cases hpk : (p.1 == k) with
      | true =>
        rw [List.find?_cons_of_pos _ (by simp [hpk]),
          List.find?_cons_of_pos _ (by simp [hpk])]
      | false =>
        rw [List.find?_cons_of_neg _ (by simp [hpk]),
          List.find?_cons_of_neg _ (by simp [hpk])]
        exact ih

/-! ## Claim C6: metadata-only edits -/

/-- Store for the C6 counterexample, with the no-op flag `false`. -/
def storeC6 : SimStore ℕ := ⟨false, [("H1", 3)]⟩

/-- **C6, counterexample.**  The claim says a metadata-only edit sets
the no-op flag **true** (and leaves the store otherwise unchanged).  In
the code the metadata-only branch raises `PreventUpdate` instead: no
output is written at all, so a store whose flag is `false` keeps it
`false` — the result is `none`, not the store with its flag set. -/
theorem metadata_edit_noop_flag_counterexample :
    storeSimsHardwareEdited (fun _ _ _ => (0 : ℕ)) [] [] [] [("H1", ["notes"])]
      storeC6 = none ∧
    storeSimsHardwareEdited (fun _ _ _ => (0 : ℕ)) [] [] [] [("H1", ["notes"])]
      storeC6 ≠ some (⟨true, storeC6.sims⟩ : SimStore ℕ) := by
  refine ⟨rfl, ?_⟩
  intro h
  rw [show storeSimsHardwareEdited (fun _ _ _ => (0 : ℕ)) [] [] [] [("H1", ["notes"])]
      storeC6 = none from rfl] at h
  exact Option.noConfusion h

/-- **C6, amended.**  An edit event (hardware or sample) in which every
changed field is a metadata field makes `store_sims_components` raise
`PreventUpdate` (result `none`): the Component Simulation Store — and
hence the rollup aggregation it would otherwise trigger — is left
byte-for-byte unchanged, but the no-op flag is **not** written; it
merely retains its previous value. -/
theorem metadata_only_edits_prevent_update {σ : Type _}
    (simFn : Hw → List Sample → List (String × σ) → σ)
    (hardware_dict hardware_prev : List Hw) (samples_list samples_prev : List Sample)
    (hwLocs : List (String × List String)) (sLocs : List (ℕ × List String))
    (current : SimStore σ)
    (hhw : (hwLocs.flatMap Prod.snd).all
      (fun x => HARDWARE_METADATA_COLUMNS.contains x) = true)
    (hs : (sLocs.flatMap Prod.snd).all
      (fun x => SAMPLE_TABLE_METADATA_COLUMNS.contains x) = true) :
    storeSimsHardwareEdited simFn hardware_dict hardware_prev samples_list hwLocs
      current = none ∧
    storeSimsSampleEdited simFn hardware_dict samples_list samples_prev sLocs
      current = none := by
  constructor
  · simp only [storeSimsHardwareEdited, hhw, if_true]
  · simp only [storeSimsSampleEdited, hs, if_true]

/-- Witness for the amended C6 at concrete metadata-only events. -/
theorem metadata_only_edits_prevent_update_witness :
    storeSimsHardwareEdited (fun _ _ _ => (0 : ℕ)) [] [] [] [("H2", ["notes"])]
      ⟨true, []⟩ = none ∧
    storeSimsSampleEdited (fun _ _ _ => (0 : ℕ)) [] [] [] [(0, ["Sampling Notes"])]
      ⟨true, []⟩ = none :=
  metadata_only_edits_prevent_update (fun _ _ _ => (0 : ℕ)) [] [] [] []
    [("H2", ["notes"])] [(0, ["Sampling Notes"])] ⟨true, []⟩ (by decide) (by decide)

/-! ## Claim C7: deletion of a component with dependents -/

/-- **C7, amended.**  Deleting a Sampled component `t` with a
simulation record does not raise (provided the tree holds `t`'s parent,
when it has one): `hardware_delete_confirm` removes it and marks every
dependent (`implied_id = t`) invalid with its link cleared, and the
subsequent removal event deletes `t`'s simulation record.  But because
case 2.3 of `store_sims_components` calls `find_implied_hardware` on the
**current** hardware dict — where the dependents are already
invalidated — the dependents' simulation records are **not** removed:
every other key of the store is untouched. -/
theorem delete_stale_implied_link_no_raise {σ : Type _}
    (hardware : List Hw) (samples : List Sample) (t : String) (T : Hw)
    (sims : List (String × σ)) (noop : Bool)
    (hT : hwLookup hardware t = some T)
    (hpar : ∀ pid, T.parentId = some pid → ∃ P ∈ hardware, P.id = pid ∧ P.id ≠ t)
    (hsim : (alookup sims t).isSome = true) :
    ∃ hw2 samples2,
      hardwareDeleteConfirm t hardware samples = some (hw2, samples2) ∧
      (∀ d ∈ hardware, d.impliedId = some t → d.id ≠ t →
        ∃ d' ∈ hw2, d'.id = d.id ∧ d'.valid = false ∧ d'.impliedId = none) ∧
      storeSimsHardwareRemoved hw2 hardware samples2 [t]
        (⟨noop, sims⟩ : SimStore σ) =
        some ⟨false, sims.filter fun p => p.1 != t⟩ ∧
      (∀ k, k ≠ t → alookup (sims.filter fun p => p.1 != t) k = alookup sims k) := by
  have hTid : T.id = t := by
    have h1 := List.find?_some hT
    simpa using h1
  -- the delete callback succeeds and returns the filtered tree, possibly
  -- with the childless parent coerced, with the dependents invalidated
  have hmid : ∃ h2 : List Hw,
      hardwareDeleteConfirm t hardware samples =
        some (h2.map (fun hw => if hw.impliedId == some t then
            { hw with valid := false, impliedId := none } else hw),
          ((samples.filter fun s => s.hardwareId != t).filter
            fun s => s.hardwareId != t)) ∧
      (∀ d ∈ hardware.filter (fun hw => hw.id != t), ∃ d2 ∈ h2, d2.id = d.id ∧
        (d2 = d ∨ (d2.valid = false ∧ d2.impliedId = none))) := by
    cases hc : T.parentId with
    | none =>
      refine ⟨hardware.filter (fun hw => hw.id != t), ?_, ?_⟩
      · unfold hardwareDeleteConfirm
        rw [hT]
        simp only [hc, Option.map_some']
      · intro d hd
        exact ⟨d, hd, rfl, Or.inl rfl⟩
    | some pid =>
      by_cases hpe : (pid == "") = true
      · refine ⟨hardware.filter (fun hw => hw.id != t), ?_, ?_⟩
        · unfold hardwareDeleteConfirm
          rw [hT]
          simp only [hc, hpe, if_true, Option.map_some']
        · intro d hd
          exact ⟨d, hd, rfl, Or.inl rfl⟩
      · by_cases hsib : ((hardware.filter fun hw => hw.id != t).filter
            fun hw => hw.parentId == some pid).isEmpty = true
        · obtain ⟨P, hP, hPid, hPne⟩ := hpar pid hc
          have hlook : (hwLookup (hardware.filter fun hw => hw.id != t) pid).isSome
              = true := by
            unfold hwLookup
            cases hf : (hardware.filter fun hw => hw.id != t).find?
                (fun h => h.id == pid) with
            | some _ => rfl
            | none =>
              rw [List.find?_eq_none] at hf
              have hmem : P ∈ hardware.filter fun hw => hw.id != t :=
                List.mem_filter.2 ⟨hP, by simpa using hPne⟩
              exact absurd (by simp [hPid] : (P.id == pid) = true)
                (by simpa using hf P hmem)
          refine ⟨(hardware.filter (fun hw => hw.id != t)).map
            (fun hw => if hw.id == pid then
              { hw with
                  isComponent := true, valid := false, dim := "2D (Area)",
                  area := 0, volume := 0, typ := "", analogy := "",
                  impliedId := none, spec := "", group := none }
              else hw), ?_, ?_⟩
          · unfold hardwareDeleteConfirm
            rw [hT]
            simp only [hc, hpe, hsib, hlook, Bool.false_eq_true, if_false, if_true,
              Option.map_some']
          · intro d hd
            refine ⟨if d.id == pid then
                { d with
                    isComponent := true, valid := false, dim := "2D (Area)",
                    area := 0, volume := 0, typ := "", analogy := "",
                    impliedId := none, spec := "", group := none }
              else d, List.mem_map_of_mem _ hd, ?_, ?_⟩
            · by_cases hdp : (d.id == pid) = true
              · rw [if_pos hdp]
              · rw [if_neg (by simp_all)]
            · by_cases hdp : (d.id == pid) = true
              · rw [if_pos hdp]
                exact Or.inr ⟨rfl, rfl⟩
              · rw [if_neg (by simp_all)]
                exact Or.inl rfl
        · refine ⟨hardware.filter (fun hw => hw.id != t), ?_, ?_⟩
          · unfold hardwareDeleteConfirm
            rw [hT]
            simp only [hc, hpe, hsib, Bool.false_eq_true, if_false, Option.map_some']
          · intro d hd
            exact ⟨d, hd, rfl, Or.inl rfl⟩
  obtain ⟨h2, hdel, hcov⟩ := hmid
  have hP1 : ∀ x ∈ h2.map (fun hw => if hw.impliedId == some t then
      { hw with valid := false, impliedId := none } else hw),
      (x.impliedId == some t) = false := by
    intro x hx
    obtain ⟨y, hy, rfl⟩ := List.mem_map.1 hx
    by_cases hyi : (y.impliedId == some t) = true
    · rw [if_pos hyi]
      simp
    · rw [if_neg (by simp_all)]
      simpa using hyi
  refine ⟨_, _, hdel, ?_, ?_, ?_⟩
  · intro d hd hdim hdid
    have hd1 : d ∈ hardware.filter (fun hw => hw.id != t) :=
      List.mem_filter.2 ⟨hd, by simp [hdid]⟩
    obtain ⟨d2, hd2mem, hd2id, hd2or⟩ := hcov d hd1
    refine ⟨if d2.impliedId == some t then
        { d2 with valid := false, impliedId := none } else d2,
      List.mem_map_of_mem _ hd2mem, ?_⟩
    rcases hd2or with rfl | ⟨hv2, hi2⟩
    · rw [if_pos (by simp [hdim])]
      exact ⟨hd2id, rfl, rfl⟩
    · rw [if_neg (by simp [hi2])]
      exact ⟨hd2id, hv2, hi2⟩
  · have hsimT : (alookup sims T.id).isSome = true := by rw [hTid]; exact hsim
    have hcond : ∀ b : Bool, (b || ((alookup sims T.id).isSome && !b)) = true := by
      intro b
      cases b <;> simp [hsimT]
    have himp : findImpliedHardware T (h2.map (fun hw =>
        if hw.impliedId == some t then
          { hw with valid := false, impliedId := none } else hw)) = [] := by
      unfold findImpliedHardware
      split_ifs with h
      · rfl
      · rw [List.filter_eq_nil_iff]
        intro x hx
        have hxi := hP1 x hx
        rw [hTid]
        simp only [Bool.and_eq_true, not_and]
        intro hv hrest
        exact absurd hrest (by simp [hxi])
    unfold storeSimsHardwareRemoved
    have hm : ([t].mapM (hwLookup hardware)) = some [T] := by
      simp [List.mapM, List.mapM.loop, hT]
    rw [hm]
    simp only [List.foldlM_cons, List.foldlM_nil, hcond, if_true, himp]
    unfold delKey
    rw [hTid, if_pos hsim]
    rfl
  · intro k hk
    exact alookup_filter_ne hk

/-- Hardware for the C7 artifacts: a valid Sampled component `"T7"` and
a dependent `"D7"` implied from it. -/
def hwT7 : Hw := ⟨"T7", none, 3, true, true, "2D (Area)", 1, 0, "Sampled", "X", none, "", none⟩

def hwD7 : Hw :=
  ⟨"D7", none, 3, true, true, "2D (Area)", 1, 0, "Unsampled - Implied", "X", some "T7", "", none⟩

/-- **C7, counterexample.**  The claim says the dependent's simulation
record is removed along with the deleted component's.  Processing the
deletion of `"T7"` removes its record but **retains** the dependent
`"D7"`'s record in the resulting store. -/
theorem delete_dependent_sims_retained_counterexample :
    ∃ hw2 samples2 st,
      hardwareDeleteConfirm "T7" [hwT7, hwD7] [] = some (hw2, samples2) ∧
      storeSimsHardwareRemoved hw2 [hwT7, hwD7] samples2 ["T7"]
        (⟨false, [("T7", (0 : ℕ)), ("D7", 1)]⟩ : SimStore ℕ) = some st ∧
      alookup st.sims "D7" = some 1 :=
  ⟨_, _, _, rfl, rfl, rfl⟩

/-- Nested tree for the C7 witness: rollup parent `"P7"`, its Sampled
child `"T7N"` (to be deleted, leaving the parent childless), and a
dependent `"D7N"` implied from `"T7N"`. -/
def hwP7 : Hw := ⟨"P7", none, 2, false, true, "2D (Area)", 0, 0, "", "", none, "", none⟩

def hwT7n : Hw :=
  ⟨"T7N", some "P7", 3, true, true, "2D (Area)", 1, 0, "Sampled", "X", none, "", none⟩

def hwD7n : Hw :=
  ⟨"D7N", none, 3, true, true, "2D (Area)", 1, 0, "Unsampled - Implied", "X", some "T7N", "", none⟩

/-- Witness for the amended C7 at the concrete nested tree (the
deletion leaves `"P7"` childless, exercising the rollup-to-component
coercion path of `hardware_delete_confirm`). -/
theorem delete_stale_implied_link_no_raise_witness :
    ∃ hw2 samples2,
      hardwareDeleteConfirm "T7N" [hwP7, hwT7n, hwD7n] [] = some (hw2, samples2) ∧
      (∀ d ∈ [hwP7, hwT7n, hwD7n], d.impliedId = some "T7N" → d.id ≠ "T7N" →
        ∃ d' ∈ hw2, d'.id = d.id ∧ d'.valid = false ∧ d'.impliedId = none) ∧
      storeSimsHardwareRemoved hw2 [hwP7, hwT7n, hwD7n] samples2 ["T7N"]
        (⟨true, [("T7N", (5 : ℕ)), ("D7N", 6)]⟩ : SimStore ℕ) =
        some ⟨false, [("T7N", (5 : ℕ)), ("D7N", 6)].filter fun p => p.1 != "T7N"⟩ ∧
      (∀ k, k ≠ "T7N" →
        alookup ([("T7N", (5 : ℕ)), ("D7N", 6)].filter fun p => p.1 != "T7N") k =
          alookup [("T7N", (5 : ℕ)), ("D7N", 6)] k) :=
  delete_stale_implied_link_no_raise [hwP7, hwT7n, hwD7n] [] "T7N" hwT7n
    [("T7N", (5 : ℕ)), ("D7N", 6)] true rfl
    (by
      intro pid h
      have hpid : pid = "P7" := by
        have : some "P7" = some pid := h
        simpa using this.symm
      subst hpid
      exact ⟨hwP7, by simp, rfl, by decide⟩)
    (by decide)

/-! ## Claim C8: only usable samples enter the likelihood data -/

/-- **C8.**  The invariant fails in case 1.2 of `store_sims_components`
(sample edited): the re-simulation passes the **unfiltered**
`samples_list` to `sim_component` (results.py lines 836–840) — every
other branch passes `samples_list_valid`.  Under an edit of a valid,
accountable sample of an eligible component, the simulation call
receives the full sample list, and any accountable-but-invalid sample
`sBad` of the same component is in `sim_component`'s likelihood data
source (`accountableSamplesFor`, update.py lines 119–130) despite not
being usable. -/
theorem sample_edit_uses_unfiltered_samples {σ : Type _}
    (simFn : Hw → List Sample → List (String × σ) → σ)
    (hardware_dict : List Hw) (samples_list samples_prev : List Sample)
    (i : ℕ) (attrs : List String) (current : SimStore σ)
    (sNew sOld : Sample) (hw : Hw) (sBad : Sample)
    (hattrs : attrs.all (fun x => SAMPLE_TABLE_METADATA_COLUMNS.contains x) = false)
    (hnew : samples_list[i]? = some sNew)
    (hold : samples_prev.find? (fun s => s.sampleId == sNew.sampleId) = some sOld)
    (hhw : hwLookup hardware_dict sNew.hardwareId = some hw)
    (himp : findImpliedHardware hw hardware_dict = [])
    (helig : isEligible (samples_list.filter fun s =>
      (identifyValidSamples samples_list hardware_dict).contains s.sampleId) hw = true)
    (hvalid : (identifyValidSamples samples_list hardware_dict).contains
      sNew.sampleId = true)
    (hacc : sNew.accountable = true)
    (hbadmem : sBad ∈ samples_list)
    (hbadhw : sBad.hardwareId = hw.id)
    (hbadacc : sBad.accountable = true)
    (hbadinv : (identifyValidSamples samples_list hardware_dict).contains
      sBad.sampleId = false) :
    storeSimsSampleEdited simFn hardware_dict samples_list samples_prev
      [(i, attrs)] current =
      some ⟨false, upsert current.sims hw.id (simFn hw samples_list current.sims)⟩ ∧
    sBad ∈ accountableSamplesFor hw samples_list ∧
    sBad.sampleId ∉ identifyValidSamples samples_list hardware_dict := by
  refine ⟨?_, ?_, ?_⟩
  · unfold storeSimsSampleEdited
    rw [show ([((i : ℕ), attrs)].flatMap Prod.snd) = attrs by simp]
    simp only [hattrs, Bool.false_eq_true, if_false, List.foldlM_cons, List.foldlM_nil,
      hnew, hold, hhw, helig, hvalid, hacc, himp, Bool.not_true, Bool.false_and,
      Bool.and_false, Bool.false_or, Bool.or_false, if_false, List.foldl_nil,
      Option.bind_eq_bind, Option.some_bind, Option.map_some', List.nil_append,
      List.all_cons, List.all_nil, Bool.and_true, id]
    rfl
  · exact List.mem_filter.2 ⟨hbadmem, by simp [hbadhw, hbadacc]⟩
  · simpa using hbadinv

/-- Data for the C8 witness: eligible component `"E8"`, a valid
accountable sample `"SG8"` being edited, and an accountable sample
`"SB8"` that is invalid (pour fraction 2 fails validation). -/
def hwE8 : Hw := ⟨"E8", none, 3, true, true, "2D (Area)", 1, 0, "Sampled", "X", none, "", none⟩

def sG8 : Sample := ⟨"SG8", "E8", "Yes", 2, 0, "Swab", "Puritan Cotton", "NASA Standard", 1, 0⟩

def sB8 : Sample := ⟨"SB8", "E8", "Yes", 2, 0, "Swab", "Puritan Cotton", "NASA Standard", 2, 0⟩

/-- Witness for C8 at the concrete instance. -/
theorem sample_edit_uses_unfiltered_samples_witness :
    storeSimsSampleEdited (fun _ _ _ => (0 : ℕ)) [hwE8] [sG8, sB8] [sG8]
      [(0, ["CFU"])] ⟨true, []⟩ =
      some ⟨false, upsert ([] : List (String × ℕ)) hwE8.id
        ((fun _ _ _ => (0 : ℕ)) hwE8 [sG8, sB8] ([] : List (String × ℕ)))⟩ ∧
    sB8 ∈ accountableSamplesFor hwE8 [sG8, sB8] ∧
    sB8.sampleId ∉ identifyValidSamples [sG8, sB8] [hwE8] :=
  sample_edit_uses_unfiltered_samples (fun _ _ _ => (0 : ℕ)) [hwE8] [sG8, sB8] [sG8]
    0 ["CFU"] ⟨true, []⟩ sG8 sG8 hwE8 sB8
    (by decide) rfl rfl rfl (by decide) (by decide) (by decide) (by decide)
    (by decide) (by decide) (by decide) (by decide)

end Biostar
